import Mathlib

/-!
# PyDebugger_CPP: a shallow embedding of `module.cpp`

The native module attaches to a Windows process as a debugger, programs the
x86 debug registers of its threads, patches INT3 bytes into its memory and
runs Python callbacks on breakpoint hits.  The operating system is modelled
as an explicit state (`System`): a thread snapshot, a thread table holding one
`CONTEXT` per thread, byte-addressed memory and the debugger-attachment flag.
Every C++ function that touches the OS becomes a pure function on that state.
Unsigned machine words are natural numbers, reduced explicitly where the C++
arithmetic can wrap.

Calls that change nothing the module later reads are left out: the privilege
helper `SetDebugPrivilege`, `OpenProcess`, `CloseHandle`, the GIL guards and the
write to `ExceptionFlags` of the local event record.  A C++ exception thrown by
pybind11 is an explicit outcome that carries the machine as it was at the throw.
The events `WaitForDebugEvent` delivers are an input list; `Stop()`, which
another thread calls, is taken to run while the loop is blocked in the wait.
-/

namespace PyDebugger

/-! ## Windows SDK constants used by the source (winnt.h, minwinbase.h) -/

/-- Value of `CONTEXT_FULL` on AMD64: control, integer and floating point parts. -/
def CONTEXT_FULL : Nat := 0x10000B

/-- Value of `CONTEXT_DEBUG_REGISTERS` on AMD64. -/
def CONTEXT_DEBUG_REGISTERS : Nat := 0x100010

/-- Value of `EXCEPTION_DEBUG_EVENT`, the debug event code of an exception. -/
def EXCEPTION_DEBUG_EVENT : Nat := 1

/-- Value of `EXCEPTION_SINGLE_STEP` (`STATUS_SINGLE_STEP`). -/
def EXCEPTION_SINGLE_STEP : Nat := 0x80000004

/-- Value of `EXCEPTION_BREAKPOINT` (`STATUS_BREAKPOINT`). -/
def EXCEPTION_BREAKPOINT : Nat := 0x80000003

/-- Value of `DBG_CONTINUE`. -/
def DBG_CONTINUE : Nat := 0x00010002

/-- Value of `DBG_EXCEPTION_NOT_HANDLED`. -/
def DBG_EXCEPTION_NOT_HANDLED : Nat := 0x80010001

/-! ## The thread CONTEXT -/

/-- The AMD64 `CONTEXT` record of winnt.h.  `DWORD64` and `DWORD` fields are
natural numbers; the 512-byte floating point save area is a list of bytes. -/
structure CONTEXT where
  ContextFlags : Nat
  MxCsr : Nat
  SegCs : Nat
  SegDs : Nat
  SegEs : Nat
  SegFs : Nat
  SegGs : Nat
  SegSs : Nat
  EFlags : Nat
  Dr0 : Nat
  Dr1 : Nat
  Dr2 : Nat
  Dr3 : Nat
  Dr6 : Nat
  Dr7 : Nat
  Rax : Nat
  Rcx : Nat
  Rdx : Nat
  Rbx : Nat
  Rsp : Nat
  Rbp : Nat
  Rsi : Nat
  Rdi : Nat
  R8 : Nat
  R9 : Nat
  R10 : Nat
  R11 : Nat
  R12 : Nat
  R13 : Nat
  R14 : Nat
  R15 : Nat
  Rip : Nat
  FltSave : List Nat
deriving DecidableEq, Repr

/-- A `CONTEXT` filled with zeroes. -/
def CONTEXT.zero : CONTEXT :=
  { ContextFlags := 0, MxCsr := 0, SegCs := 0, SegDs := 0, SegEs := 0, SegFs := 0,
    SegGs := 0, SegSs := 0, EFlags := 0, Dr0 := 0, Dr1 := 0, Dr2 := 0, Dr3 := 0,
    Dr6 := 0, Dr7 := 0, Rax := 0, Rcx := 0, Rdx := 0, Rbx := 0, Rsp := 0, Rbp := 0,
    Rsi := 0, Rdi := 0, R8 := 0, R9 := 0, R10 := 0, R11 := 0, R12 := 0, R13 := 0,
    R14 := 0, R15 := 0, Rip := 0, FltSave := [] }

/-- The sixteen general purpose registers of a `CONTEXT`, in the order in which
`PythonContext` stores them. -/
def CONTEXT.gprs (c : CONTEXT) : List Nat :=
  [c.Rax, c.Rcx, c.Rdx, c.Rbx, c.Rsp, c.Rbp, c.Rsi, c.Rdi,
   c.R8, c.R9, c.R10, c.R11, c.R12, c.R13, c.R14, c.R15]

/-- Every general purpose register holds a 64-bit value, as a `DWORD64` field does. -/
def CONTEXT.GprsInRange (c : CONTEXT) : Prop :=
  ∀ v ∈ c.gprs, v < 2 ^ 64

instance (c : CONTEXT) : Decidable c.GprsInRange := by
  unfold CONTEXT.GprsInRange; infer_instance

/-! ## Python values crossing the pybind11 boundary -/

/-- A value stored in the register dictionary: a Python integer, or any other
Python object (which `cast<uint64_t>` rejects). -/
inductive PyVal where
  | int (i : Int)
  | other
deriving DecidableEq, Repr

/-- A `py::dict` keyed by strings. -/
abbrev PyDict := String → Option PyVal

/-- The empty dictionary, the state of a default-constructed `py::dict`. -/
def PyDict.empty : PyDict := fun _ => none

/-- Item assignment `d[k] = v`. -/
def PyDict.set (d : PyDict) (k : String) (v : PyVal) : PyDict :=
  fun k' => if k' = k then some v else d k'

/-- The C++ exceptions pybind11 throws: a Python error in flight, or a failed cast. -/
inductive PyError where
  | error_already_set
  | cast_error
deriving DecidableEq, Repr

/-- Item access `d[k]` evaluated as an rvalue: a missing key is a Python `KeyError`. -/
def PyDict.getItem (d : PyDict) (k : String) : Except PyError PyVal :=
  match d k with
  | some v => .ok v
  | none => .error .error_already_set

/-- The conversion `.cast<uint64_t>()`: only integers in `[0, 2^64)` convert. -/
def castUInt64 : PyVal → Except PyError Nat
  | .int i => if 0 ≤ i ∧ i < 2 ^ 64 then .ok i.toNat else .error .cast_error
  | .other => .error .cast_error

/-- The expression `ctxPython[k].cast<uint64_t>()`. -/
def PyDict.getUInt64 (d : PyDict) (k : String) : Except PyError Nat :=
  match d.getItem k with
  | .ok v => castUInt64 v
  | .error err => .error err

/-- What a Python callback hands back when it returns normally. -/
inductive PyRet where
  | none
  | dict (d : PyDict)
  | other

/-- The outcome of calling a Python callback on a dictionary passed by
reference: it raises, or it returns a value and leaves the dictionary in some
state. -/
inductive PyResult where
  | raised
  | returned (dictAfter : PyDict) (value : PyRet)

/-- A `py::function` taking the register dictionary. -/
abbrev PyFunction := PyDict → PyResult

/-! ## PythonContext (module.cpp lines 84-131) -/

/-- The class `PythonContext`: the captured `CONTEXT` and the dictionary
shown to Python. -/
structure PythonContext where
  ctxOriginal : CONTEXT
  ctxPython : PyDict

/-- The constructor `PythonContext(CONTEXT ctx)`. -/
def PythonContext.construct (ctx : CONTEXT) : PythonContext :=
  let d := PyDict.empty
  let d := d.set "Rax" (.int ctx.Rax)
  let d := d.set "Rcx" (.int ctx.Rcx)
  let d := d.set "Rdx" (.int ctx.Rdx)
  let d := d.set "Rbx" (.int ctx.Rbx)
  let d := d.set "Rsp" (.int ctx.Rsp)
  let d := d.set "Rbp" (.int ctx.Rbp)
  let d := d.set "Rsi" (.int ctx.Rsi)
  let d := d.set "Rdi" (.int ctx.Rdi)
  let d := d.set "R8" (.int ctx.R8)
  let d := d.set "R9" (.int ctx.R9)
  let d := d.set "R10" (.int ctx.R10)
  let d := d.set "R11" (.int ctx.R11)
  let d := d.set "R12" (.int ctx.R12)
  let d := d.set "R13" (.int ctx.R13)
  let d := d.set "R14" (.int ctx.R14)
  let d := d.set "R15" (.int ctx.R15)
  { ctxOriginal := ctx, ctxPython := d }

/-- The method `PythonContext::ContextFromDict`. -/
def PythonContext.ContextFromDict (p : PythonContext) : Except PyError CONTEXT := do
  let ctxOut := p.ctxOriginal
  let ctxOut := { ctxOut with Rax := ← p.ctxPython.getUInt64 "Rax" }
  let ctxOut := { ctxOut with Rcx := ← p.ctxPython.getUInt64 "Rcx" }
  let ctxOut := { ctxOut with Rdx := ← p.ctxPython.getUInt64 "Rdx" }
  let ctxOut := { ctxOut with Rbx := ← p.ctxPython.getUInt64 "Rbx" }
  let ctxOut := { ctxOut with Rsp := ← p.ctxPython.getUInt64 "Rsp" }
  let ctxOut := { ctxOut with Rbp := ← p.ctxPython.getUInt64 "Rbp" }
  let ctxOut := { ctxOut with Rsi := ← p.ctxPython.getUInt64 "Rsi" }
  let ctxOut := { ctxOut with Rdi := ← p.ctxPython.getUInt64 "Rdi" }
  let ctxOut := { ctxOut with R8 := ← p.ctxPython.getUInt64 "R8" }
  let ctxOut := { ctxOut with R9 := ← p.ctxPython.getUInt64 "R9" }
  let ctxOut := { ctxOut with R10 := ← p.ctxPython.getUInt64 "R10" }
  let ctxOut := { ctxOut with R11 := ← p.ctxPython.getUInt64 "R11" }
  let ctxOut := { ctxOut with R12 := ← p.ctxPython.getUInt64 "R12" }
  let ctxOut := { ctxOut with R13 := ← p.ctxPython.getUInt64 "R13" }
  let ctxOut := { ctxOut with R14 := ← p.ctxPython.getUInt64 "R14" }
  let ctxOut := { ctxOut with R15 := ← p.ctxPython.getUInt64 "R15" }
  return ctxOut

/-- The sixteen keys of the register dictionary. -/
def gprNames : List String :=
  ["Rax", "Rcx", "Rdx", "Rbx", "Rsp", "Rbp", "Rsi", "Rdi",
   "R8", "R9", "R10", "R11", "R12", "R13", "R14", "R15"]

/-- The dictionary binds key `k` to an integer that fits in 64 unsigned bits. -/
def PyDict.holdsUInt64 (d : PyDict) (k : String) : Bool :=
  match d k with
  | some (.int i) => decide (0 ≤ i ∧ i < 2 ^ 64)
  | _ => false

/-- The dictionary holds a 64-bit unsigned value under each of the sixteen register names. -/
def PyDict.HoldsGprs (d : PyDict) : Prop :=
  ∀ k ∈ gprNames, d.holdsUInt64 k = true

instance (d : PyDict) : Decidable d.HoldsGprs := by
  unfold PyDict.HoldsGprs; infer_instance

/-- The 64-bit value bound to `k`, read as a natural number (0 when there is none). -/
def PyDict.u64 (d : PyDict) (k : String) : Nat :=
  match d k with
  | some (.int i) => i.toNat
  | _ => 0

/-- The `CONTEXT` `c` with its sixteen general purpose registers set from `d`
and nothing else touched. -/
def CONTEXT.withGprs (c : CONTEXT) (d : PyDict) : CONTEXT :=
  { c with
    Rax := d.u64 "Rax", Rcx := d.u64 "Rcx", Rdx := d.u64 "Rdx", Rbx := d.u64 "Rbx",
    Rsp := d.u64 "Rsp", Rbp := d.u64 "Rbp", Rsi := d.u64 "Rsi", Rdi := d.u64 "Rdi",
    R8 := d.u64 "R8", R9 := d.u64 "R9", R10 := d.u64 "R10", R11 := d.u64 "R11",
    R12 := d.u64 "R12", R13 := d.u64 "R13", R14 := d.u64 "R14", R15 := d.u64 "R15" }

/-! ## Breakpoint (module.cpp lines 133-177) -/

/-- The class `Breakpoint`: target address, Python callback and the original
byte of a software breakpoint. -/
structure Breakpoint where
  address : Nat
  callback : PyFunction
  originalByte : Nat

/-- A default-constructed `py::function()`: a null handle, calling it fails. -/
def nullFunction : PyFunction := fun _ => .raised

/-- The constructor `Breakpoint()`. -/
def Breakpoint.empty : Breakpoint :=
  { address := 0x0, callback := nullFunction, originalByte := 0x00 }

/-- The constructor `Breakpoint(DWORD64 addr, py::function cb)`. -/
def Breakpoint.hardware (addr : Nat) (cb : PyFunction) : Breakpoint :=
  { address := addr, callback := cb, originalByte := 0x00 }

/-- The constructor `Breakpoint(DWORD64 addr, BYTE byOriginal, py::function cb)`. -/
def Breakpoint.software (addr : Nat) (byOriginal : Nat) (cb : PyFunction) : Breakpoint :=
  { address := addr, callback := cb, originalByte := byOriginal }

/-- The method `Breakpoint::CallbackWithContext`: the dictionary is handed to
the callback by pointer, the value the callback returns is dropped, and the
dictionary as the callback left it is converted back. -/
def Breakpoint.CallbackWithContext (bp : Breakpoint) (ctx : CONTEXT) : Except PyError CONTEXT :=
  let ctxPassed := PythonContext.construct ctx
  match bp.callback ctxPassed.ctxPython with
  | .raised => .error .error_already_set
  | .returned dictAfter _ =>
    let ctxPassed := { ctxPassed with ctxPython := dictAfter }
    ctxPassed.ContextFromDict

/-- The comparison `operator==(Breakpoint const&, Breakpoint const&)`. -/
def Breakpoint.eq (lhs rhs : Breakpoint) : Bool :=
  if lhs.address = rhs.address then true else false

/-! ## The operating system state and the Win32 calls the module makes -/

/-- One entry of a Toolhelp thread snapshot. -/
structure THREADENTRY32 where
  th32ThreadID : Nat
  th32OwnerProcessID : Nat
deriving DecidableEq, Repr

/-- A live thread: its register file and whether reading and writing its
context succeed. -/
structure ThreadState where
  ctx : CONTEXT
  getOk : Bool
  setOk : Bool
deriving DecidableEq, Repr

/-- The part of the machine the module acts on.  `snapshot` is what
`CreateToolhelp32Snapshot` captures, `threads` the threads `OpenThread` opens, by
thread id,
`mem` the target's bytes, `writable` whether `WriteProcessMemory` succeeds at an
address, `attachable` and `debugged` decide `DebugActiveProcess`, `uninit` is
the indeterminate content of an uninitialised local `CONTEXT`, and `continued`
records the `ContinueDebugEvent` calls (process id, thread id, status), newest
first. -/
structure System where
  snapshot : List THREADENTRY32
  threads : Nat → Option ThreadState
  mem : Nat → Nat
  writable : Nat → Bool
  attachable : Bool
  debugged : Bool
  uninit : CONTEXT
  continued : List (Nat × Nat × Nat)

/-- The call `OpenThread(THREAD_ALL_ACCESS, FALSE, tid)`: a handle on the thread,
or `NULL` (`none`) when the call fails (the thread is gone, or access is refused). -/
def OpenThread (sys : System) (tid : Nat) : Option Nat :=
  match sys.threads tid with
  | some _ => some tid
  | none => none

/-- The call `GetThreadContext(hThread, &ctx)`: the success flag and the content
of `ctx` afterwards.  On success the thread's registers are copied in and
`ContextFlags` stays as the caller set it; on failure `ctx` is left as it was.
The registers outside the requested `ContextFlags` parts are copied as well:
`SetThreadContext` writes them back unchanged, so the thread ends in the state
the partial copies of the real calls leave it in. -/
def GetThreadContext (sys : System) (hThread : Option Nat) (ctx : CONTEXT) : Bool × CONTEXT :=
  match hThread with
  | none => (false, ctx)
  | some tid =>
    match sys.threads tid with
    | none => (false, ctx)
    | some t =>
      if t.getOk then (true, { t.ctx with ContextFlags := ctx.ContextFlags }) else (false, ctx)

/-- The call `SetThreadContext(hThread, &ctx)`. -/
def SetThreadContext (sys : System) (hThread : Option Nat) (ctx : CONTEXT) : System :=
  match hThread with
  | none => sys
  | some tid =>
    match sys.threads tid with
    | none => sys
    | some t =>
      if t.setOk then
        { sys with threads := fun i => if i = tid then some { t with ctx := ctx } else sys.threads i }
      else sys

/-- The call `WriteProcessMemory(hProcess, addr, &byte, 1, NULL)`. -/
def WriteProcessMemory (sys : System) (addr : Nat) (byte : Nat) : System :=
  if sys.writable addr then
    { sys with mem := fun a => if a = addr then byte else sys.mem a }
  else sys

/-- The call `DebugActiveProcess(pid)`: succeeds when the target can be attached
to and no debugger is attached yet. -/
def DebugActiveProcess (sys : System) : Bool × System :=
  if sys.attachable && !sys.debugged then (true, { sys with debugged := true })
  else (false, sys)

/-- The call `DebugActiveProcessStop(pid)`. -/
def DebugActiveProcessStop (sys : System) : System :=
  { sys with debugged := false }

/-- The call `ContinueDebugEvent(pid, tid, status)`. -/
def ContinueDebugEvent (sys : System) (dwProcessId dwThreadId dwContinueStatus : Nat) : System :=
  { sys with continued := (dwProcessId, dwThreadId, dwContinueStatus) :: sys.continued }

/-- The call `Thread32First(hSnapshot, &te)`: the first entry goes into `te`, the
cursor is left after it. -/
def Thread32First (snap : List THREADENTRY32) : Option (THREADENTRY32 × List THREADENTRY32) :=
  match snap with
  | [] => none
  | te :: rest => some (te, rest)

/-- The call `Thread32Next(hSnapshot, &te)`: the entry under the cursor goes into
`te` and the cursor advances. -/
def Thread32Next (cursor : List THREADENTRY32) : Option (THREADENTRY32 × List THREADENTRY32) :=
  match cursor with
  | [] => none
  | te :: rest => some (te, rest)

/-! ## UpdateBreakpointsOnThreads (module.cpp lines 12-50) -/

/-- The assignments to the local `ctx` between the two context calls (lines 28-41). -/
def setDebugRegisters (ctx : CONTEXT) (addr : Nat) (index : Int) : CONTEXT :=
  let ctx := if index = 0 then { ctx with Dr0 := addr } else ctx
  let ctx := if index = 1 then { ctx with Dr1 := addr } else ctx
  let ctx := if index = 2 then { ctx with Dr2 := addr } else ctx
  let ctx := if index = 3 then { ctx with Dr3 := addr } else ctx
  { ctx with Dr7 := (1 <<< 0) ||| (1 <<< 2) ||| (1 <<< 4) ||| (1 <<< 6) }

/-- The body of the thread walk (lines 19-48) for the entry `te`. -/
def programThread (te : THREADENTRY32) (dwProcessID addr : Nat) (index : Int)
    (sys : System) : System :=
  if te.th32OwnerProcessID = dwProcessID then
    let hThread := OpenThread sys te.th32ThreadID
    let ctx := { sys.uninit with ContextFlags := CONTEXT_DEBUG_REGISTERS }
    let got := GetThreadContext sys hThread ctx
    if got.1 then
      SetThreadContext sys hThread (setDebugRegisters got.2 addr index)
    else sys
  else sys

/-- The loop `while (Thread32Next(hSnapshot, &te)) ...` (line 18). -/
def walkThreads (dwProcessID addr : Nat) (index : Int) :
    List THREADENTRY32 → System → System
  | [], sys => sys
  | te :: rest, sys => walkThreads dwProcessID addr index rest (programThread te dwProcessID addr index sys)

/-- The function `UpdateBreakpointsOnThreads(dwProcessID, addr, index)`.  The
entry fetched by `Thread32First` is replaced by the first `Thread32Next` before
the loop body looks at it. -/
def UpdateBreakpointsOnThreads (sys : System) (dwProcessID addr : Nat) (index : Int) : System :=
  match Thread32First sys.snapshot with
  | some (_, cursor) => walkThreads dwProcessID addr index cursor sys
  | none => sys

/-! ## DebugHandler (module.cpp lines 179-379) -/

/-- The class `DebugHandler`: target pid, the four hardware slots, the software
breakpoints and the flag that keeps the event loop running. -/
structure DebugHandler where
  pid : Nat
  hwBreakpoints : Fin 4 → Breakpoint
  swBreakpoints : List Breakpoint
  bHandleBreakpoints : Bool

/-- The constructor `DebugHandler(DWORD p)`. -/
def DebugHandler.construct (p : Nat) : DebugHandler :=
  { pid := p, hwBreakpoints := fun _ => Breakpoint.empty, swBreakpoints := [],
    bHandleBreakpoints := false }

/-- The array `hwBreakpoints` in iteration order. -/
def DebugHandler.hwList (s : DebugHandler) : List Breakpoint :=
  [s.hwBreakpoints 0, s.hwBreakpoints 1, s.hwBreakpoints 2, s.hwBreakpoints 3]

/-- The method `CreateHardwareBreakpoint(i, b)` for an index inside the array. -/
def DebugHandler.CreateHardwareBreakpoint (s : DebugHandler) (i : Fin 4) (b : Breakpoint) :
    DebugHandler :=
  { s with hwBreakpoints := fun j => if j = i then b else s.hwBreakpoints j }

/-- The method `CreateSoftwareBreakpoint(b)`: `push_back` on the vector. -/
def DebugHandler.CreateSoftwareBreakpoint (s : DebugHandler) (b : Breakpoint) : DebugHandler :=
  { s with swBreakpoints := s.swBreakpoints ++ [b] }

/-- The method `DeleteSoftwareBreakpoint(addr)`: its body is empty. -/
def DebugHandler.DeleteSoftwareBreakpoint (s : DebugHandler) (_addr : Nat) : DebugHandler :=
  s

/-- The method `SetSoftwareBreakpoint(b)`: write `0xCC` at the breakpoint's address. -/
def DebugHandler.SetSoftwareBreakpoint (_s : DebugHandler) (b : Breakpoint) (sys : System) :
    System :=
  let int3 := 0xCC
  WriteProcessMemory sys b.address int3

/-- The loop of `RemoveSoftwareBreakpoint` (lines 214-221) over the vector. -/
def restoreMatching (b : Breakpoint) : List Breakpoint → System → System
  | [], sys => sys
  | breakpoint :: rest, sys =>
    let sys :=
      if breakpoint.eq b then WriteProcessMemory sys breakpoint.address breakpoint.originalByte
      else sys
    restoreMatching b rest sys

/-- The method `RemoveSoftwareBreakpoint(b)`: the session after the call and the
machine after the call. -/
def DebugHandler.RemoveSoftwareBreakpoint (s : DebugHandler) (b : Breakpoint) (sys : System) :
    DebugHandler × System :=
  (s, restoreMatching b s.swBreakpoints sys)

/-- The loop of `UpdateBreakpoints` (lines 240-246) over the hardware slots. -/
def programSlots (pid : Nat) : List Breakpoint → Int → System → System
  | [], _, sys => sys
  | breakpoint :: rest, counter, sys =>
    let sys :=
      if breakpoint.address ≠ 0x0 then
        UpdateBreakpointsOnThreads sys pid breakpoint.address counter
      else sys
    programSlots pid rest (counter + 1) sys

/-- The method `UpdateBreakpoints()`. -/
def DebugHandler.UpdateBreakpoints (s : DebugHandler) (sys : System) : System :=
  match DebugActiveProcess sys with
  | (true, sys) =>
    let counter := 0
    let sys := programSlots s.pid s.hwList counter sys
    DebugActiveProcessStop sys
  | (false, sys) => sys

/-- The method `Stop()`: the session after the call and the machine after the call. -/
def DebugHandler.Stop (s : DebugHandler) (sys : System) : DebugHandler × System :=
  let s := { s with bHandleBreakpoints := false }
  let s := { s with hwBreakpoints := fun j => if j = 0 then Breakpoint.empty else s.hwBreakpoints j }
  let s := { s with hwBreakpoints := fun j => if j = 1 then Breakpoint.empty else s.hwBreakpoints j }
  let s := { s with hwBreakpoints := fun j => if j = 2 then Breakpoint.empty else s.hwBreakpoints j }
  let s := { s with hwBreakpoints := fun j => if j = 3 then Breakpoint.empty else s.hwBreakpoints j }
  (s, s.UpdateBreakpoints sys)

/-! ### The event loop of `HandleBreakpoints` (lines 254-366) -/

/-- The fields of `DEBUG_EVENT` the loop reads; the exception fields are
meaningful for an exception event. -/
structure DEBUG_EVENT where
  dwDebugEventCode : Nat
  dwProcessId : Nat
  dwThreadId : Nat
  ExceptionCode : Nat
  ExceptionAddress : Nat
deriving DecidableEq, Repr

/-- The state after the breakpoints of one collection were checked against an
event: the machine and the local `bContinueDebugging`, or a C++ exception in
flight together with the machine as it was when the exception was thrown. -/
inductive HitResult where
  | ok (sys : System) (bContinueDebugging : Bool)
  | raised (err : PyError) (sys : System)

/-- The arming loop at the top of each iteration (lines 268-270). -/
def armSoftwareBreakpoints (s : DebugHandler) : List Breakpoint → System → System
  | [], sys => sys
  | breakpoint :: rest, sys => armSoftwareBreakpoints s rest (s.SetSoftwareBreakpoint breakpoint sys)

/-- The body of the hardware loop (lines 280-312) for one slot. -/
def hwStep (breakpoint : Breakpoint) (dbgEvent : DEBUG_EVENT) (sys : System)
    (bContinueDebugging : Bool) : HitResult :=
  if dbgEvent.ExceptionAddress = breakpoint.address then
    match OpenThread sys dbgEvent.dwThreadId with
    | some hThread =>
      let ctx := { sys.uninit with ContextFlags := CONTEXT_FULL }
      let ctx := (GetThreadContext sys (some hThread) ctx).2
      match breakpoint.CallbackWithContext ctx with
      | .error err => .raised err sys
      | .ok callback =>
        let ctx := callback
        let ctx := { ctx with EFlags := ctx.EFlags ||| 0x10000 }
        let sys := SetThreadContext sys (some hThread) ctx
        .ok sys true
    | none => .ok sys bContinueDebugging
  else .ok sys bContinueDebugging

/-- The hardware loop (lines 279-313). -/
def hwLoop (dbgEvent : DEBUG_EVENT) : List Breakpoint → System → Bool → HitResult
  | [], sys, b => .ok sys b
  | breakpoint :: rest, sys, b =>
    match hwStep breakpoint dbgEvent sys b with
    | .ok sys b => hwLoop dbgEvent rest sys b
    | .raised err sys => .raised err sys

/-- The body of the software loop (lines 318-345) for one breakpoint. -/
def swStep (s : DebugHandler) (breakpoint : Breakpoint) (dbgEvent : DEBUG_EVENT) (sys : System)
    (bContinueDebugging : Bool) : HitResult :=
  if dbgEvent.ExceptionAddress = breakpoint.address then
    let sys := (s.RemoveSoftwareBreakpoint breakpoint sys).2
    match OpenThread sys dbgEvent.dwThreadId with
    | some hThread =>
      let ctx := { sys.uninit with ContextFlags := CONTEXT_FULL }
      let ctx := (GetThreadContext sys (some hThread) ctx).2
      match breakpoint.CallbackWithContext ctx with
      | .error err => .raised err sys
      | .ok callback =>
        let ctx := callback
        let ctx := { ctx with Rip := (ctx.Rip + (2 ^ 64 - 1)) % 2 ^ 64 }
        let ctx := { ctx with EFlags := ctx.EFlags ||| 0x10000 }
        let sys := SetThreadContext sys (some hThread) ctx
        .ok sys true
    | none => .ok sys true
  else .ok sys bContinueDebugging

/-- The software loop (lines 317-346). -/
def swLoop (s : DebugHandler) (dbgEvent : DEBUG_EVENT) : List Breakpoint → System → Bool → HitResult
  | [], sys, b => .ok sys b
  | breakpoint :: rest, sys, b =>
    match swStep s breakpoint dbgEvent sys b with
    | .ok sys b => swLoop s dbgEvent rest sys b
    | .raised err sys => .raised err sys

/-- The result of the `switch` on one debug event: the machine after
`ContinueDebugEvent`, the local `bContinueDebugging` and the status the event
was continued with; or a C++ exception in flight, no `ContinueDebugEvent`
having been issued. -/
inductive EventResult where
  | continued (sys : System) (bContinueDebugging : Bool) (dwContinueStatus : Nat)
  | raised (err : PyError) (sys : System)

/-- The `switch (dbgEvent.dwDebugEventCode)` of the loop (lines 274-361). -/
def dispatchDebugEvent (s : DebugHandler) (dbgEvent : DEBUG_EVENT) (sys : System)
    (bContinueDebugging : Bool) : EventResult :=
  if dbgEvent.dwDebugEventCode = EXCEPTION_DEBUG_EVENT then
    let r :=
      if dbgEvent.ExceptionCode = EXCEPTION_SINGLE_STEP then
        hwLoop dbgEvent s.hwList sys bContinueDebugging
      else if dbgEvent.ExceptionCode = EXCEPTION_BREAKPOINT then
        swLoop s dbgEvent s.swBreakpoints sys bContinueDebugging
      else .ok sys bContinueDebugging
    match r with
    | .raised err sys => .raised err sys
    | .ok sys b =>
      if b then
        .continued (ContinueDebugEvent sys dbgEvent.dwProcessId dbgEvent.dwThreadId DBG_CONTINUE)
          false DBG_CONTINUE
      else
        .continued
          (ContinueDebugEvent sys dbgEvent.dwProcessId dbgEvent.dwThreadId DBG_EXCEPTION_NOT_HANDLED)
          b DBG_EXCEPTION_NOT_HANDLED
  else
    .continued
      (ContinueDebugEvent sys dbgEvent.dwProcessId dbgEvent.dwThreadId DBG_EXCEPTION_NOT_HANDLED)
      bContinueDebugging DBG_EXCEPTION_NOT_HANDLED

/-- What the loop sees when `WaitForDebugEvent` returns: the event, and whether
another thread ran `Stop()` while the loop was blocked in the wait. -/
structure WaitResult where
  event : DEBUG_EVENT
  stopCalled : Bool
deriving DecidableEq, Repr

/-- How a run of the event loop ends: the `while` condition became false, the
loop is blocked in `WaitForDebugEvent` with no further event, or a C++ exception
left the loop. -/
inductive LoopResult where
  | exited (s : DebugHandler) (sys : System)
  | blocked (s : DebugHandler) (sys : System)
  | raised (err : PyError) (s : DebugHandler) (sys : System)

/-- The `while (bHandleBreakpoints)` loop (lines 266-362), driven by the results
of the successive waits. -/
def eventLoop : List WaitResult → DebugHandler → System → Bool → LoopResult
  | [], s, sys, _ =>
    if s.bHandleBreakpoints then .blocked s (armSoftwareBreakpoints s s.swBreakpoints sys)
    else .exited s sys
  | w :: rest, s, sys, b =>
    if s.bHandleBreakpoints then
      let sys := armSoftwareBreakpoints s s.swBreakpoints sys
      let st := if w.stopCalled then s.Stop sys else (s, sys)
      match dispatchDebugEvent st.1 w.event st.2 b with
      | .raised err sys => .raised err st.1 sys
      | .continued sys b _ => eventLoop rest st.1 sys b
    else .exited s sys

/-- The method `HandleBreakpoints()`. -/
def DebugHandler.HandleBreakpoints (s : DebugHandler) (sys : System) (waits : List WaitResult) :
    LoopResult :=
  match DebugActiveProcess sys with
  | (true, sys) =>
    let bContinueDebugging := false
    match eventLoop waits s sys bContinueDebugging with
    | .exited s sys => .exited s (DebugActiveProcessStop sys)
    | .blocked s sys => .blocked s sys
    | .raised err s sys => .raised err s sys
  | (false, sys) => .exited s (DebugActiveProcessStop sys)

/-- The method `StartHandlingBreakpoints()`. -/
def DebugHandler.StartHandlingBreakpoints (s : DebugHandler) (sys : System)
    (waits : List WaitResult) : LoopResult :=
  let s := { s with bHandleBreakpoints := true }
  let sys := s.UpdateBreakpoints sys
  s.HandleBreakpoints sys waits

/-! ## Concrete sessions and machines used to evaluate the code -/

/-- A callback that returns the dictionary it was given and does not touch it. -/
def identityCallback : PyFunction := fun d => .returned d (.dict d)

/-- A callback that leaves the dictionary it was given alone and returns a new
dictionary in which `Rax` is 5. -/
def freshMapCallback : PyFunction := fun d => .returned d (.dict (d.set "Rax" (.int 5)))

/-- A callback that stores 5 under `Rax` in the dictionary it was given and
returns `None`. -/
def setRaxCallback : PyFunction := fun d => .returned (d.set "Rax" (.int 5)) .none

/-- A thread stopped just after an INT3 at `0x401000`, with `Rax = 1`. -/
def demoThread : ThreadState :=
  { ctx := { CONTEXT.zero with Rax := 1, Rip := 0x401001, EFlags := 0x246 },
    getOk := true, setOk := true }

/-- A target process 7 with the threads 1 and 2, both in the snapshot, whose
byte at `0x401000` is `0x90`. -/
def demoSystem : System :=
  { snapshot := [{ th32ThreadID := 1, th32OwnerProcessID := 7 },
                 { th32ThreadID := 2, th32OwnerProcessID := 7 }],
    threads := fun i => if i = 1 ∨ i = 2 then some demoThread else none,
    mem := fun a => if a = 0x401000 then 0x90 else 0,
    writable := fun _ => true,
    attachable := true,
    debugged := false,
    uninit := CONTEXT.zero,
    continued := [] }

/-- A software breakpoint at `0x401000` with original byte `0x90`. -/
def demoSoftware (cb : PyFunction) : Breakpoint := Breakpoint.software 0x401000 0x90 cb

/-- A session on process 7 with one hardware breakpoint in slot 0 and one
software breakpoint, both at `0x401000`, sharing the callback `cb`. -/
def demoSession (cb : PyFunction) : DebugHandler :=
  ((DebugHandler.construct 7).CreateHardwareBreakpoint 0
    (Breakpoint.hardware 0x401000 cb)).CreateSoftwareBreakpoint (demoSoftware cb)

/-- A breakpoint exception at `0x401000` on thread 2 of process 7. -/
def breakpointEvent : DEBUG_EVENT :=
  { dwDebugEventCode := EXCEPTION_DEBUG_EVENT, dwProcessId := 7, dwThreadId := 2,
    ExceptionCode := EXCEPTION_BREAKPOINT, ExceptionAddress := 0x401000 }

/-- A single-step exception at `0x401000` on thread 2 of process 7. -/
def singleStepEvent : DEBUG_EVENT :=
  { dwDebugEventCode := EXCEPTION_DEBUG_EVENT, dwProcessId := 7, dwThreadId := 2,
    ExceptionCode := EXCEPTION_SINGLE_STEP, ExceptionAddress := 0x401000 }

/-- A thread-creation event (`CREATE_THREAD_DEBUG_EVENT` = 2) of process 7. -/
def createThreadEvent : DEBUG_EVENT :=
  { dwDebugEventCode := 2, dwProcessId := 7, dwThreadId := 3,
    ExceptionCode := 0, ExceptionAddress := 0 }

/-- The content of the local `ctx` after the capture sequence of a hit handler
(lines 286-293 and 324-328): `ContextFlags = CONTEXT_FULL`, then
`GetThreadContext`. -/
def capturedContext (sys : System) (tid : Nat) : CONTEXT :=
  (GetThreadContext sys (some tid) { sys.uninit with ContextFlags := CONTEXT_FULL }).2

/-- The machine a hit handler leaves behind, whether it returned or threw. -/
def HitResult.system : HitResult → System
  | .ok sys _ => sys
  | .raised _ sys => sys

/-- The registers of thread `tid`, when it exists. -/
def System.contextOf (sys : System) (tid : Nat) : Option CONTEXT :=
  (sys.threads tid).map fun t => t.ctx

/-- The `Rax` entry of the dictionary a callback returned, when it returned one. -/
def PyResult.returnedRax : PyResult → Option Nat
  | .returned _ (.dict m) => some (m.u64 "Rax")
  | _ => none

/-- The machine after the `switch` on one event, whether it completed or threw. -/
def EventResult.system : EventResult → System
  | .continued sys _ _ => sys
  | .raised _ sys => sys

/-- The status the event was continued with, when `ContinueDebugEvent` was reached. -/
def EventResult.status : EventResult → Option Nat
  | .continued _ _ st => some st
  | .raised _ _ => none

/-- The machine at the end of a run of the loop. -/
def LoopResult.system : LoopResult → System
  | .exited _ sys => sys
  | .blocked _ sys => sys
  | .raised _ _ sys => sys

/-- The byte at address `a` once the loop has exited through its `while` condition. -/
def LoopResult.exitedByte (r : LoopResult) (a : Nat) : Option Nat :=
  match r with
  | .exited _ sys => some (sys.mem a)
  | _ => none

/-- The events the `switch` hands to a breakpoint: exception events that are a
single-step at the address of one of the four hardware slots on a thread that
`OpenThread` opens, or a breakpoint exception at the address of a breakpoint of
the software collection. -/
def DebugHandler.matchesEvent (s : DebugHandler) (sys : System) (e : DEBUG_EVENT) : Prop :=
  e.dwDebugEventCode = EXCEPTION_DEBUG_EVENT ∧
  ((e.ExceptionCode = EXCEPTION_SINGLE_STEP ∧
      (∃ i, (s.hwBreakpoints i).address = e.ExceptionAddress) ∧
      ∃ t, sys.threads e.dwThreadId = some t) ∨
   (e.ExceptionCode = EXCEPTION_BREAKPOINT ∧
      ∃ bp ∈ s.swBreakpoints, bp.address = e.ExceptionAddress))

/-- The thread accepts context reads and writes, and its debug registers are
programmed for slot `index` with `addr`. -/
def Programmed (addr : Nat) (index : Int) (t : ThreadState) : Prop :=
  t.getOk = true ∧ t.setOk = true ∧ t.ctx.Dr7 = 0x55 ∧
  (index = 0 → t.ctx.Dr0 = addr) ∧ (index = 1 → t.ctx.Dr1 = addr) ∧
  (index = 2 → t.ctx.Dr2 = addr) ∧ (index = 3 → t.ctx.Dr3 = addr)

theorem getUInt64_of_holds (d : PyDict) (k : String) (h : d.holdsUInt64 k = true) :
    d.getUInt64 k = .ok (d.u64 k) := by
  unfold PyDict.holdsUInt64 at h
  unfold PyDict.getUInt64 PyDict.getItem PyDict.u64
  cases hk : d k with
  | none => simp [hk] at h
  | some v =>
    cases v with
    | other => simp [hk] at h
    | int i =>
      simp only [hk, decide_eq_true_eq] at h
      have h1 := h.1
      have h2 := h.2
      simp only [castUInt64, h1, h2, and_self, if_true]

theorem ContextFromDict_eq_withGprs (c : CONTEXT) (m : PyDict) (hm : m.HoldsGprs) :
    PythonContext.ContextFromDict { ctxOriginal := c, ctxPython := m } = .ok (c.withGprs m) := by
  have h := fun k hk => getUInt64_of_holds m k (hm k hk)
  simp only [gprNames, List.mem_cons, List.mem_singleton, forall_eq_or_imp, forall_eq] at h
  simp [PythonContext.ContextFromDict, h, CONTEXT.withGprs, bind, Except.bind, pure, Except.pure]

theorem withGprs_construct (c : CONTEXT) :
    c.withGprs (PythonContext.construct c).ctxPython = c := by
  simp [CONTEXT.withGprs, PythonContext.construct, PyDict.u64, PyDict.set]

theorem construct_holdsGprs (c : CONTEXT) (h : c.GprsInRange) :
    (PythonContext.construct c).ctxPython.HoldsGprs := by
  unfold CONTEXT.GprsInRange CONTEXT.gprs at h
  simp only [List.mem_cons, List.mem_singleton, forall_eq_or_imp, forall_eq, List.not_mem_nil,
    false_implies, implies_true, and_true] at h
  intro k hk
  simp only [gprNames, List.mem_cons, List.mem_singleton, List.not_mem_nil, or_false] at hk
  rcases hk with rfl | rfl | rfl | rfl | rfl | rfl | rfl | rfl | rfl | rfl | rfl | rfl | rfl |
    rfl | rfl | rfl
  all_goals (simp [PyDict.holdsUInt64, PythonContext.construct, PyDict.set]; omega)

theorem construct_ctxOriginal (c : CONTEXT) : (PythonContext.construct c).ctxOriginal = c := rfl

theorem CallbackWithContext_returned (bp : Breakpoint) (c : CONTEXT) (d : PyDict) (v : PyRet)
    (hcb : bp.callback (PythonContext.construct c).ctxPython = .returned d v)
    (hd : d.HoldsGprs) :
    bp.CallbackWithContext c = .ok (c.withGprs d) := by
  unfold Breakpoint.CallbackWithContext
  simp only [hcb]
  exact ContextFromDict_eq_withGprs c d hd

/-- C3. `ContextFromDict` on a captured `CONTEXT` `c` and a dictionary `m` that
holds a 64-bit unsigned value under each of the sixteen register names returns
`c` with the sixteen general purpose registers taken from `m`; every other
field (Rip, EFlags, segment selectors, debug registers, floating point state,
ContextFlags) is the field of `c`. -/
theorem ContextFromDict_replaces_only_gprs (c : CONTEXT) (m : PyDict) (hm : m.HoldsGprs) :
    PythonContext.ContextFromDict { ctxOriginal := c, ctxPython := m } =
      .ok { ContextFlags := c.ContextFlags, MxCsr := c.MxCsr, SegCs := c.SegCs, SegDs := c.SegDs,
            SegEs := c.SegEs, SegFs := c.SegFs, SegGs := c.SegGs, SegSs := c.SegSs,
            EFlags := c.EFlags, Dr0 := c.Dr0, Dr1 := c.Dr1, Dr2 := c.Dr2, Dr3 := c.Dr3,
            Dr6 := c.Dr6, Dr7 := c.Dr7,
            Rax := m.u64 "Rax", Rcx := m.u64 "Rcx", Rdx := m.u64 "Rdx", Rbx := m.u64 "Rbx",
            Rsp := m.u64 "Rsp", Rbp := m.u64 "Rbp", Rsi := m.u64 "Rsi", Rdi := m.u64 "Rdi",
            R8 := m.u64 "R8", R9 := m.u64 "R9", R10 := m.u64 "R10", R11 := m.u64 "R11",
            R12 := m.u64 "R12", R13 := m.u64 "R13", R14 := m.u64 "R14", R15 := m.u64 "R15",
            Rip := c.Rip, FltSave := c.FltSave } :=
  ContextFromDict_eq_withGprs c m hm

/-- C3 at a concrete input: the registers of `demoThread` with `Rax` rebound to 5. -/
theorem ContextFromDict_replaces_only_gprs_witness :
    ((PythonContext.construct demoThread.ctx).ctxPython.set "Rax" (.int 5)).HoldsGprs ∧
    PythonContext.ContextFromDict
        { ctxOriginal := demoThread.ctx,
          ctxPython := (PythonContext.construct demoThread.ctx).ctxPython.set "Rax" (.int 5) } =
      .ok { CONTEXT.zero with Rax := 5, Rip := 0x401001, EFlags := 0x246 } :=
  ⟨by decide,
   (ContextFromDict_replaces_only_gprs demoThread.ctx _ (by decide)).trans (by rfl)⟩

/-! ## Frame properties of the memory writes -/

theorem WriteProcessMemory_frame (sys : System) (a v : Nat) :
    WriteProcessMemory sys a v = { sys with mem := (WriteProcessMemory sys a v).mem } := by
  unfold WriteProcessMemory
  split <;> rfl

theorem restoreMatching_frame (b : Breakpoint) (l : List Breakpoint) (sys : System) :
    restoreMatching b l sys = { sys with mem := (restoreMatching b l sys).mem } := by
  induction l generalizing sys with
  | nil => rfl
  | cons bp rest ih =>
    simp only [restoreMatching]
    split
    · rw [ih, WriteProcessMemory_frame]
    · exact ih sys

theorem armSoftwareBreakpoints_frame (s : DebugHandler) (l : List Breakpoint) (sys : System) :
    armSoftwareBreakpoints s l sys = { sys with mem := (armSoftwareBreakpoints s l sys).mem } := by
  induction l generalizing sys with
  | nil => rfl
  | cons bp rest ih =>
    simp only [armSoftwareBreakpoints, DebugHandler.SetSoftwareBreakpoint]
    rw [ih, WriteProcessMemory_frame]

/-! ## One hit of a breakpoint -/

theorem SetThreadContext_contextOf (sys : System) (tid : Nat) (t : ThreadState) (ctx : CONTEXT)
    (ht : sys.threads tid = some t) (hset : t.setOk = true) :
    (SetThreadContext sys (some tid) ctx).contextOf tid = some ctx := by
  simp [SetThreadContext, System.contextOf, ht, hset]

theorem hwStep_returned (bp : Breakpoint) (e : DEBUG_EVENT) (sys : System) (b : Bool)
    (t : ThreadState) (d : PyDict) (v : PyRet)
    (haddr : e.ExceptionAddress = bp.address)
    (ht : sys.threads e.dwThreadId = some t)
    (hcb : bp.callback (PythonContext.construct (capturedContext sys e.dwThreadId)).ctxPython
      = .returned d v)
    (hd : d.HoldsGprs) :
    hwStep bp e sys b =
      .ok (SetThreadContext sys (some e.dwThreadId)
        { (capturedContext sys e.dwThreadId).withGprs d with
          EFlags := ((capturedContext sys e.dwThreadId).withGprs d).EFlags ||| 0x10000 }) true := by
  have hc := CallbackWithContext_returned bp _ d v hcb hd
  unfold capturedContext at hc
  simp only [hwStep, haddr, if_true, OpenThread, ht, hc]
  rfl

theorem swStep_returned (s : DebugHandler) (bp : Breakpoint) (e : DEBUG_EVENT) (sys : System)
    (b : Bool) (t : ThreadState) (d : PyDict) (v : PyRet)
    (haddr : e.ExceptionAddress = bp.address)
    (ht : sys.threads e.dwThreadId = some t)
    (hcb : bp.callback (PythonContext.construct (capturedContext sys e.dwThreadId)).ctxPython
      = .returned d v)
    (hd : d.HoldsGprs) :
    swStep s bp e sys b =
      .ok (SetThreadContext (s.RemoveSoftwareBreakpoint bp sys).2 (some e.dwThreadId)
        { (capturedContext sys e.dwThreadId).withGprs d with
          Rip := (((capturedContext sys e.dwThreadId).withGprs d).Rip + (2 ^ 64 - 1)) % 2 ^ 64,
          EFlags := ((capturedContext sys e.dwThreadId).withGprs d).EFlags ||| 0x10000 }) true := by
  have hc := CallbackWithContext_returned bp _ d v hcb hd
  unfold capturedContext at hc
  have hfr := restoreMatching_frame bp s.swBreakpoints sys
  have ht2 : (restoreMatching bp s.swBreakpoints sys).threads e.dwThreadId = some t := by
    rw [hfr]; exact ht
  have hcap : GetThreadContext (restoreMatching bp s.swBreakpoints sys) (some e.dwThreadId)
      { (restoreMatching bp s.swBreakpoints sys).uninit with ContextFlags := CONTEXT_FULL } =
      GetThreadContext sys (some e.dwThreadId) { sys.uninit with ContextFlags := CONTEXT_FULL } := by
    rw [hfr]; rfl
  simp only [swStep, haddr, if_true, OpenThread, DebugHandler.RemoveSoftwareBreakpoint, ht2, hcap,
    hc]
  rfl

theorem testBit_or_resume (x i : Nat) :
    (x ||| 0x10000).testBit i = (x.testBit i || decide (i = 16)) := by
  have h : (0x10000 : Nat) = 2 ^ 16 := by norm_num
  rw [Nat.testBit_or, h, Nat.testBit_two_pow]
  by_cases hi : i = 16
  · subst hi; simp
  · have : ¬ 16 = i := fun h => hi h.symm
    simp [hi, this]

/-- C2 (amended). On a software-breakpoint hit (the exception address equals
the breakpoint's address, the thread opens and its context can be written),
when the callback returns normally and leaves in the dictionary it was handed a
64-bit value for each register name, the CONTEXT written back to the thread is
the captured CONTEXT with the 16 GPRs replaced by the entries of that
dictionary as the callback left it (the value the callback returns plays no
part), Rip equal to the captured Rip minus 1 modulo 2^64, and EFlags equal to
the captured EFlags with bit 16 (0x10000) set and every other bit unchanged. -/
theorem software_hit_writes_back (s : DebugHandler) (bp : Breakpoint) (e : DEBUG_EVENT)
    (sys : System) (b : Bool) (t : ThreadState) (d : PyDict) (v : PyRet)
    (haddr : e.ExceptionAddress = bp.address)
    (ht : sys.threads e.dwThreadId = some t)
    (hset : t.setOk = true)
    (hcb : bp.callback (PythonContext.construct (capturedContext sys e.dwThreadId)).ctxPython
      = .returned d v)
    (hd : d.HoldsGprs) :
    ∃ sys' written,
      swStep s bp e sys b = .ok sys' true ∧
      sys'.contextOf e.dwThreadId = some written ∧
      written = { (capturedContext sys e.dwThreadId).withGprs d with
                  Rip := ((capturedContext sys e.dwThreadId).Rip + (2 ^ 64 - 1)) % 2 ^ 64,
                  EFlags := (capturedContext sys e.dwThreadId).EFlags ||| 0x10000 } ∧
      (0 < (capturedContext sys e.dwThreadId).Rip → (capturedContext sys e.dwThreadId).Rip < 2 ^ 64 →
        written.Rip = (capturedContext sys e.dwThreadId).Rip - 1) ∧
      ((capturedContext sys e.dwThreadId).Rip = 0 → written.Rip = 2 ^ 64 - 1) ∧
      written.EFlags.testBit 16 = true ∧
      ∀ i, i ≠ 16 → written.EFlags.testBit i = (capturedContext sys e.dwThreadId).EFlags.testBit i := by
  have hfr := restoreMatching_frame bp s.swBreakpoints sys
  have ht2 : (s.RemoveSoftwareBreakpoint bp sys).2.threads e.dwThreadId = some t := by
    simp only [DebugHandler.RemoveSoftwareBreakpoint]; rw [hfr]; exact ht
  refine ⟨_, _, swStep_returned s bp e sys b t d v haddr ht hcb hd,
    SetThreadContext_contextOf _ _ t _ ht2 hset, rfl, ?_, ?_, ?_, ?_⟩
  · intro h0 h1
    show ((capturedContext sys e.dwThreadId).Rip + (2 ^ 64 - 1)) % 2 ^ 64 = _
    omega
  · intro h0
    show ((capturedContext sys e.dwThreadId).Rip + (2 ^ 64 - 1)) % 2 ^ 64 = _
    rw [h0]; norm_num
  · show ((capturedContext sys e.dwThreadId).EFlags ||| 0x10000).testBit 16 = true
    rw [testBit_or_resume]; simp
  · intro i hi
    show ((capturedContext sys e.dwThreadId).EFlags ||| 0x10000).testBit i = _
    rw [testBit_or_resume]; simp [hi]

/-- C2 (amended) at a concrete hit: the callback stores 5 under `Rax` and
returns `None`; thread 2 ends with `Rax = 5`, `Rip` rewound to `0x401000` and
bit 16 added to its EFlags `0x246`. -/
theorem software_hit_writes_back_witness :
    ((swStep (demoSession setRaxCallback) (demoSoftware setRaxCallback) breakpointEvent demoSystem
        false).system.contextOf 2).map (fun c => (c.Rax, c.Rip, c.EFlags)) =
      some (5, 0x401000, 0x10246) := by
  obtain ⟨sys', written, h1, h2, h3, -⟩ :=
    software_hit_writes_back (demoSession setRaxCallback) (demoSoftware setRaxCallback)
      breakpointEvent demoSystem false demoThread
      ((PythonContext.construct (capturedContext demoSystem 2)).ctxPython.set "Rax" (.int 5)) .none
      (by decide) (by decide) (by decide) (by rfl) (by decide)
  have h2' : sys'.contextOf 2 = some written := h2
  rw [h1]
  simp only [HitResult.system, h2', Option.map_some', h3]
  decide

/-- C2 (as stated) fails: the callback returns a fresh map whose `Rax` is 5 and
leaves the dictionary it was handed alone; the CONTEXT written back to the
thread has `Rax = 1`, the captured value, not the returned map's 5. -/
theorem software_hit_ignores_returned_map :
    (freshMapCallback
        (PythonContext.construct (capturedContext demoSystem 2)).ctxPython).returnedRax = some 5 ∧
    ((swStep (demoSession freshMapCallback) (demoSoftware freshMapCallback) breakpointEvent
        demoSystem false).system.contextOf 2).map (fun c => c.Rax) = some 1 := by
  decide

/-- C4. Identity round trip: for a captured CONTEXT `c` (its registers being
64-bit values) the dictionary built by the `PythonContext` constructor converts
back, unchanged, to `c` itself; consequently a hardware or software breakpoint
hit on a writable thread whose callback leaves the map as it received it (as a
callback that returns its input unchanged does) writes back a CONTEXT whose 16
GPRs equal those of the captured CONTEXT. -/
theorem identity_round_trip (c : CONTEXT) (hc : c.GprsInRange) :
    (PythonContext.construct c).ContextFromDict = .ok c ∧
    ∀ (s : DebugHandler) (bp : Breakpoint) (e : DEBUG_EVENT) (sys : System) (b : Bool)
      (t : ThreadState) (v : PyRet),
      bp.callback (PythonContext.construct c).ctxPython =
        .returned (PythonContext.construct c).ctxPython v →
      e.ExceptionAddress = bp.address →
      sys.threads e.dwThreadId = some t → t.setOk = true →
      capturedContext sys e.dwThreadId = c →
      (∃ sys' written, hwStep bp e sys b = .ok sys' true ∧
        sys'.contextOf e.dwThreadId = some written ∧ written.gprs = c.gprs) ∧
      (∃ sys' written, swStep s bp e sys b = .ok sys' true ∧
        sys'.contextOf e.dwThreadId = some written ∧ written.gprs = c.gprs) := by
  have hholds := construct_holdsGprs c hc
  have hround := withGprs_construct c
  refine ⟨?_, ?_⟩
  · have h := ContextFromDict_eq_withGprs c (PythonContext.construct c).ctxPython hholds
    rw [hround] at h
    exact h
  · intro s bp e sys b t v hid haddr ht hset hcap
    subst hcap
    have hfr := restoreMatching_frame bp s.swBreakpoints sys
    have ht2 : (s.RemoveSoftwareBreakpoint bp sys).2.threads e.dwThreadId = some t := by
      simp only [DebugHandler.RemoveSoftwareBreakpoint]; rw [hfr]; exact ht
    refine ⟨⟨_, _, hwStep_returned bp e sys b t _ _ haddr ht hid hholds,
        SetThreadContext_contextOf _ _ t _ ht hset, ?_⟩,
      ⟨_, _, swStep_returned s bp e sys b t _ _ haddr ht hid hholds,
        SetThreadContext_contextOf _ _ t _ ht2 hset, ?_⟩⟩
    · rw [hround]; rfl
    · rw [hround]; rfl

/-- C4 at a concrete input: the registers of `demoThread` survive the round
trip, and a hardware hit on thread 2 with the identity callback writes back the
captured registers. -/
theorem identity_round_trip_witness :
    (PythonContext.construct demoThread.ctx).ContextFromDict = .ok demoThread.ctx ∧
    ((hwStep (Breakpoint.hardware 0x401000 identityCallback) singleStepEvent demoSystem
        false).system.contextOf 2).map CONTEXT.gprs = some demoThread.ctx.gprs := by
  have h := identity_round_trip { demoThread.ctx with ContextFlags := CONTEXT_FULL } (by decide)
  refine ⟨(identity_round_trip demoThread.ctx (by decide)).1, ?_⟩
  obtain ⟨sys', written, h1, h2, h3⟩ :=
    (h.2 (demoSession identityCallback) (Breakpoint.hardware 0x401000 identityCallback)
      singleStepEvent demoSystem false demoThread
      (.dict (PythonContext.construct { demoThread.ctx with ContextFlags := CONTEXT_FULL }).ctxPython)
      (by rfl) (by decide) (by decide) (by decide) (by rfl)).1
  have h2' : sys'.contextOf 2 = some written := h2
  rw [h1]
  simp only [HitResult.system, h2', Option.map_some', h3]
  rfl

/-! ## Arming and restoring software breakpoints -/

theorem WriteProcessMemory_mem (sys : System) (a v x : Nat) (hw : sys.writable a = true) :
    (WriteProcessMemory sys a v).mem x = if x = a then v else sys.mem x := by
  simp [WriteProcessMemory, hw]

theorem WriteProcessMemory_mem_other (sys : System) (a v x : Nat) (hx : x ≠ a) :
    (WriteProcessMemory sys a v).mem x = sys.mem x := by
  unfold WriteProcessMemory
  split
  · simp [hx]
  · rfl

theorem WriteProcessMemory_writable (sys : System) (a v : Nat) :
    (WriteProcessMemory sys a v).writable = sys.writable := by
  rw [WriteProcessMemory_frame]

theorem armSoftwareBreakpoints_mem (s : DebugHandler) (l : List Breakpoint) (sys : System)
    (a : Nat) (hw : ∀ bp ∈ l, sys.writable bp.address = true) :
    (armSoftwareBreakpoints s l sys).mem a =
      if ∃ bp ∈ l, bp.address = a then 0xCC else sys.mem a := by
  induction l generalizing sys with
  | nil => simp [armSoftwareBreakpoints]
  | cons bp rest ih =>
    have hbp : sys.writable bp.address = true := hw bp (List.mem_cons_self _ _)
    have hrest : ∀ x ∈ rest, (WriteProcessMemory sys bp.address 0xCC).writable x.address = true := by
      intro x hx
      rw [WriteProcessMemory_writable]
      exact hw x (List.mem_cons_of_mem _ hx)
    simp only [armSoftwareBreakpoints, DebugHandler.SetSoftwareBreakpoint]
    rw [ih _ hrest, WriteProcessMemory_mem _ _ _ _ hbp]
    by_cases h1 : ∃ x ∈ rest, x.address = a
    · have h2 : ∃ x ∈ bp :: rest, x.address = a := by
        obtain ⟨x, hx, hxa⟩ := h1
        exact ⟨x, List.mem_cons_of_mem _ hx, hxa⟩
      simp [h1, h2]
    · by_cases h3 : a = bp.address
      · have h2 : ∃ x ∈ bp :: rest, x.address = a := ⟨bp, List.mem_cons_self _ _, h3.symm⟩
        simp [h1, h2, h3]
      · have h2 : ¬ ∃ x ∈ bp :: rest, x.address = a := by
          rintro ⟨x, hx, hxa⟩
          rcases List.mem_cons.mp hx with rfl | hx
          · exact h3 hxa.symm
          · exact h1 ⟨x, hx, hxa⟩
        have h3' : ¬ bp.address = a := fun h => h3 h.symm
        simp [h1, h2, h3, h3']

theorem restoreMatching_mem_other (b : Breakpoint) (l : List Breakpoint) (sys : System) (a : Nat)
    (ha : a ≠ b.address) : (restoreMatching b l sys).mem a = sys.mem a := by
  induction l generalizing sys with
  | nil => rfl
  | cons bp rest ih =>
    by_cases h : bp.address = b.address
    · have heq : bp.eq b = true := by simp [Breakpoint.eq, h]
      simp only [restoreMatching, heq, if_true]
      rw [ih, WriteProcessMemory_mem_other _ _ _ _ (by rw [h]; exact ha)]
    · have heq : bp.eq b = false := by simp [Breakpoint.eq, h]
      simp only [restoreMatching, heq, Bool.false_eq_true, if_false]
      exact ih sys

theorem restoreMatching_mem (b : Breakpoint) (l : List Breakpoint) (sys : System) (ob : Nat)
    (hw : sys.writable b.address = true)
    (hob : ∀ bp ∈ l, bp.address = b.address → bp.originalByte = ob) :
    (restoreMatching b l sys).mem b.address =
      if ∃ bp ∈ l, bp.address = b.address then ob else sys.mem b.address := by
  induction l generalizing sys with
  | nil => simp [restoreMatching]
  | cons bp rest ih =>
    have hob' : ∀ x ∈ rest, x.address = b.address → x.originalByte = ob :=
      fun x hx => hob x (List.mem_cons_of_mem _ hx)
    by_cases h : bp.address = b.address
    · have heq : bp.eq b = true := by simp [Breakpoint.eq, h]
      have hw' : (WriteProcessMemory sys bp.address bp.originalByte).writable b.address = true := by
        rw [WriteProcessMemory_writable]; exact hw
      have hwb : sys.writable bp.address = true := by rw [h]; exact hw
      have h2 : ∃ x ∈ bp :: rest, x.address = b.address := ⟨bp, List.mem_cons_self _ _, h⟩
      have hbyte := hob bp (List.mem_cons_self _ _) h
      simp only [restoreMatching, heq, if_true]
      rw [ih _ hw' hob', WriteProcessMemory_mem _ _ _ _ hwb, if_pos h.symm, if_pos h2, hbyte]
      split <;> rfl
    · have heq : bp.eq b = false := by simp [Breakpoint.eq, h]
      simp only [restoreMatching, heq, Bool.false_eq_true, if_false]
      rw [ih sys hw hob']
      have hiff : (∃ x ∈ bp :: rest, x.address = b.address) ↔ ∃ x ∈ rest, x.address = b.address := by
        constructor
        · rintro ⟨x, hx, hxa⟩
          rcases List.mem_cons.mp hx with rfl | hx
          · exact absurd hxa h
          · exact ⟨x, hx, hxa⟩
        · rintro ⟨x, hx, hxa⟩
          exact ⟨x, List.mem_cons_of_mem _ hx, hxa⟩
      simp only [hiff]

/-- C10. Arming step of a loop iteration: when the writes succeed, after
`SetSoftwareBreakpoint` was applied to each breakpoint of the collection the
byte at the address of every breakpoint of the collection is `0xCC`, and every
byte at an address that belongs to no breakpoint of the collection is
unchanged. -/
theorem arming_step_writes_int3 (s : DebugHandler) (sys : System)
    (hw : ∀ bp ∈ s.swBreakpoints, sys.writable bp.address = true) :
    (∀ bp ∈ s.swBreakpoints,
      (armSoftwareBreakpoints s s.swBreakpoints sys).mem bp.address = 0xCC) ∧
    (∀ a, (∀ bp ∈ s.swBreakpoints, bp.address ≠ a) →
      (armSoftwareBreakpoints s s.swBreakpoints sys).mem a = sys.mem a) := by
  refine ⟨?_, ?_⟩
  · intro bp hbp
    rw [armSoftwareBreakpoints_mem s _ sys _ hw, if_pos ⟨bp, hbp, rfl⟩]
  · intro a ha
    rw [armSoftwareBreakpoints_mem s _ sys _ hw, if_neg]
    rintro ⟨bp, hbp, hbpa⟩
    exact ha bp hbp hbpa

/-- C10 at a concrete input: arming the demo session turns the byte `0x90` at
`0x401000` into `0xCC` and leaves the byte at `0x401001` alone. -/
theorem arming_step_writes_int3_witness :
    (armSoftwareBreakpoints (demoSession identityCallback)
        (demoSession identityCallback).swBreakpoints demoSystem).mem 0x401000 = 0xCC ∧
    (armSoftwareBreakpoints (demoSession identityCallback)
        (demoSession identityCallback).swBreakpoints demoSystem).mem 0x401001 =
      demoSystem.mem 0x401001 :=
  ⟨(arming_step_writes_int3 (demoSession identityCallback) demoSystem
      (fun _ _ => rfl)).1 (demoSoftware identityCallback) (by simp [demoSession,
        DebugHandler.CreateSoftwareBreakpoint, DebugHandler.CreateHardwareBreakpoint,
        DebugHandler.construct]),
   (arming_step_writes_int3 (demoSession identityCallback) demoSystem
      (fun _ _ => rfl)).2 0x401001 (by
        intro bp hbp
        simp only [demoSession, DebugHandler.CreateSoftwareBreakpoint,
          DebugHandler.CreateHardwareBreakpoint, DebugHandler.construct, List.nil_append,
          List.mem_singleton] at hbp
        subst hbp
        decide)⟩

/-- C6 (amended). `RemoveSoftwareBreakpoint(bp)`: when `bp`'s address is that of
a breakpoint of the software collection, the collection stores the original
byte `ob` for that address and the write succeeds, then after the call the
target byte at that address equals `ob`, every other byte is unchanged, and the
software collection is exactly what it was: nothing is removed, so it still
contains a breakpoint with that address. -/
theorem remove_restores_byte_and_keeps_collection (s : DebugHandler) (b : Breakpoint)
    (sys : System) (ob : Nat)
    (hmem : ∃ bp ∈ s.swBreakpoints, bp.address = b.address)
    (hob : ∀ bp ∈ s.swBreakpoints, bp.address = b.address → bp.originalByte = ob)
    (hw : sys.writable b.address = true) :
    (s.RemoveSoftwareBreakpoint b sys).2.mem b.address = ob ∧
    (∀ a, a ≠ b.address → (s.RemoveSoftwareBreakpoint b sys).2.mem a = sys.mem a) ∧
    (s.RemoveSoftwareBreakpoint b sys).1.swBreakpoints = s.swBreakpoints ∧
    (∃ bp ∈ (s.RemoveSoftwareBreakpoint b sys).1.swBreakpoints, bp.address = b.address) := by
  refine ⟨?_, ?_, rfl, hmem⟩
  · simp only [DebugHandler.RemoveSoftwareBreakpoint]
    rw [restoreMatching_mem b _ sys ob hw hob, if_pos hmem]
  · intro a ha
    exact restoreMatching_mem_other b _ sys a ha

/-- C6 (amended) at a concrete input: the armed demo session, from which the
breakpoint at `0x401000` is removed. -/
theorem remove_restores_byte_and_keeps_collection_witness :
    (armSoftwareBreakpoints (demoSession identityCallback)
        (demoSession identityCallback).swBreakpoints demoSystem).mem 0x401000 = 0xCC ∧
    ((demoSession identityCallback).RemoveSoftwareBreakpoint (demoSoftware identityCallback)
        (armSoftwareBreakpoints (demoSession identityCallback)
          (demoSession identityCallback).swBreakpoints demoSystem)).2.mem 0x401000 = 0x90 :=
  ⟨by decide,
   (remove_restores_byte_and_keeps_collection (demoSession identityCallback)
      (demoSoftware identityCallback)
      (armSoftwareBreakpoints (demoSession identityCallback)
        (demoSession identityCallback).swBreakpoints demoSystem) 0x90
      ⟨demoSoftware identityCallback, by simp [demoSession,
        DebugHandler.CreateSoftwareBreakpoint, DebugHandler.CreateHardwareBreakpoint,
        DebugHandler.construct], rfl⟩
      (by
        intro bp hbp _
        simp only [demoSession, DebugHandler.CreateSoftwareBreakpoint,
          DebugHandler.CreateHardwareBreakpoint, DebugHandler.construct, List.nil_append,
          List.mem_singleton] at hbp
        subst hbp
        rfl)
      (by decide)).1⟩

/-- C6 (as stated) fails: after `RemoveSoftwareBreakpoint` on the armed demo
session the byte at `0x401000` is back to `0x90`, but the software collection
still contains the breakpoint at `0x401000`. -/
theorem remove_leaves_breakpoint_in_collection :
    ((demoSession identityCallback).RemoveSoftwareBreakpoint (demoSoftware identityCallback)
        (armSoftwareBreakpoints (demoSession identityCallback)
          (demoSession identityCallback).swBreakpoints demoSystem)).1.swBreakpoints.map
      (fun bp => bp.address) = [0x401000] := by
  decide

/-- C1 (code evaluated at the failing input). The snapshot holds the threads 1
and 2 of process 7, both readable and writable, thread 1 first.  After
`UpdateBreakpointsOnThreads(7, 0x401000, 0)` thread 2 has `Dr0 = 0x401000` and
`Dr7 = 0x55`, while thread 1, the first entry of the snapshot, still has
`Dr0 = 0` and `Dr7 = 0`. -/
theorem first_snapshot_entry_not_programmed :
    ((UpdateBreakpointsOnThreads demoSystem 7 0x401000 0).contextOf 2).map
        (fun c => (c.Dr0, c.Dr7)) = some (0x401000, 0x55) ∧
    ((UpdateBreakpointsOnThreads demoSystem 7 0x401000 0).contextOf 1).map
        (fun c => (c.Dr0, c.Dr7)) = some (0, 0) := by
  decide

/-! ## Frame properties of the thread operations -/

theorem SetThreadContext_frame (sys : System) (h : Option Nat) (ctx : CONTEXT) :
    SetThreadContext sys h ctx = { sys with threads := (SetThreadContext sys h ctx).threads } := by
  cases h with
  | none => rfl
  | some tid =>
    cases ht : sys.threads tid with
    | none => simp only [SetThreadContext, ht]
    | some t =>
      by_cases hs : t.setOk = true
      · simp only [SetThreadContext, ht, hs, if_true]
      · simp only [SetThreadContext, ht, hs]
        rfl

theorem programThread_frame (te : THREADENTRY32) (pid addr : Nat) (index : Int) (sys : System) :
    programThread te pid addr index sys =
      { sys with threads := (programThread te pid addr index sys).threads } := by
  unfold programThread
  by_cases h1 : te.th32OwnerProcessID = pid
  · simp only [h1, if_true]
    split
    · rw [SetThreadContext_frame]
    · rfl
  · simp only [h1, if_false]

theorem walkThreads_frame (pid addr : Nat) (index : Int) (l : List THREADENTRY32) (sys : System) :
    walkThreads pid addr index l sys =
      { sys with threads := (walkThreads pid addr index l sys).threads } := by
  induction l generalizing sys with
  | nil => rfl
  | cons te rest ih =>
    simp only [walkThreads]
    rw [ih, programThread_frame]

theorem UpdateBreakpointsOnThreads_frame (sys : System) (pid addr : Nat) (index : Int) :
    UpdateBreakpointsOnThreads sys pid addr index =
      { sys with threads := (UpdateBreakpointsOnThreads sys pid addr index).threads } := by
  unfold UpdateBreakpointsOnThreads
  split
  · exact walkThreads_frame _ _ _ _ _
  · rfl

theorem programSlots_frame (pid : Nat) (l : List Breakpoint) (counter : Int) (sys : System) :
    programSlots pid l counter sys =
      { sys with threads := (programSlots pid l counter sys).threads } := by
  induction l generalizing sys counter with
  | nil => rfl
  | cons bp rest ih =>
    simp only [programSlots]
    split
    · rw [ih, UpdateBreakpointsOnThreads_frame]
    · exact ih _ _

theorem UpdateBreakpoints_frame (s : DebugHandler) (sys : System) :
    s.UpdateBreakpoints sys =
      { sys with threads := (s.UpdateBreakpoints sys).threads,
                 debugged := (s.UpdateBreakpoints sys).debugged } := by
  unfold DebugHandler.UpdateBreakpoints DebugActiveProcess
  split
  · rename_i sys' heq
    split at heq
    · simp only [Prod.mk.injEq, true_and] at heq
      subst heq
      simp only [DebugActiveProcessStop]
      rw [programSlots_frame]
    · simp at heq
  · rename_i sys' heq
    split at heq
    · simp at heq
    · simp only [Prod.mk.injEq, true_and] at heq
      subst heq
      rfl

theorem programSlots_zero (pid : Nat) (l : List Breakpoint) (counter : Int) (sys : System)
    (h : ∀ bp ∈ l, bp.address = 0) : programSlots pid l counter sys = sys := by
  induction l generalizing sys counter with
  | nil => rfl
  | cons bp rest ih =>
    have h0 : bp.address = 0 := h bp (List.mem_cons_self _ _)
    simp only [programSlots, h0, ne_eq, not_true_eq_false, if_false]
    exact ih _ _ (fun x hx => h x (List.mem_cons_of_mem _ hx))

theorem UpdateBreakpoints_zero_threads (s : DebugHandler) (sys : System)
    (h : ∀ bp ∈ s.hwList, bp.address = 0) :
    (s.UpdateBreakpoints sys).threads = sys.threads := by
  unfold DebugHandler.UpdateBreakpoints DebugActiveProcess
  split
  · rename_i sys' heq
    split at heq
    · simp only [Prod.mk.injEq, true_and] at heq
      subst heq
      dsimp only
      rw [programSlots_zero _ _ _ _ h]
      rfl
    · simp at heq
  · rename_i sys' heq
    split at heq
    · simp at heq
    · simp only [Prod.mk.injEq, true_and] at heq
      subst heq
      rfl

theorem Stop_session (s : DebugHandler) (sys : System) :
    (s.Stop sys).1.bHandleBreakpoints = false ∧
    (∀ i, ((s.Stop sys).1.hwBreakpoints i).address = 0) ∧
    (s.Stop sys).1.swBreakpoints = s.swBreakpoints ∧
    (s.Stop sys).1.pid = s.pid := by
  refine ⟨rfl, ?_, rfl, rfl⟩
  intro i
  simp only [DebugHandler.Stop]
  fin_cases i <;> simp [Breakpoint.empty]

theorem Stop_threads (s : DebugHandler) (sys : System) :
    (s.Stop sys).2.threads = sys.threads := by
  have h := (Stop_session s sys).2.1
  simp only [DebugHandler.Stop] at h ⊢
  apply UpdateBreakpoints_zero_threads
  intro bp hbp
  simp only [DebugHandler.hwList, List.mem_cons, List.mem_singleton, List.not_mem_nil,
    or_false] at hbp
  rcases hbp with rfl | rfl | rfl | rfl
  · exact h 0
  · exact h 1
  · exact h 2
  · exact h 3

theorem Stop_frame (s : DebugHandler) (sys : System) :
    (s.Stop sys).2 = { sys with debugged := (s.Stop sys).2.debugged } := by
  have h1 := Stop_threads s sys
  have h2 := UpdateBreakpoints_frame (s.Stop sys).1 sys
  have h3 : (s.Stop sys).2 = (s.Stop sys).1.UpdateBreakpoints sys := rfl
  rw [← h3] at h2
  rw [h2, h1]

/-- C5 (amended). After `Stop()` the running flag of the session is false and
each of its four hardware slots holds address zero; on the threads, `Stop()`
clears no Dr7 local-enable bit: a thread whose Dr7 had the enable bits of the
slots 0-3 (`0x55`) set before the call has them set after it. -/
theorem stop_zeroes_slots_keeps_dr7_enables (s : DebugHandler) (sys : System) :
    (s.Stop sys).1.bHandleBreakpoints = false ∧
    (∀ i, ((s.Stop sys).1.hwBreakpoints i).address = 0) ∧
    (∀ tid t, sys.threads tid = some t → t.ctx.Dr7 &&& 0x55 = 0x55 →
      ∃ t', (s.Stop sys).2.threads tid = some t' ∧ t'.ctx.Dr7 &&& 0x55 = 0x55) := by
  refine ⟨(Stop_session s sys).1, (Stop_session s sys).2.1, ?_⟩
  intro tid t ht h7
  exact ⟨t, by rw [Stop_threads]; exact ht, h7⟩

/-- C5 (amended) at a concrete input: thread 2 of the demo machine, programmed
by `UpdateBreakpoints`, keeps the Dr7 enable bits `0x55` across `Stop()`. -/
theorem stop_zeroes_slots_keeps_dr7_enables_witness :
    (((demoSession identityCallback).UpdateBreakpoints demoSystem).contextOf 2).map
        (fun c => c.Dr7 &&& 0x55) = some 0x55 ∧
    (((demoSession identityCallback).Stop
        ((demoSession identityCallback).UpdateBreakpoints demoSystem)).2.contextOf 2).map
        (fun c => c.Dr7 &&& 0x55) = some 0x55 := by
  refine ⟨by decide, ?_⟩
  obtain ⟨t', h1, h2⟩ :=
    (stop_zeroes_slots_keeps_dr7_enables (demoSession identityCallback)
      ((demoSession identityCallback).UpdateBreakpoints demoSystem)).2.2 2
      { demoThread with ctx := { demoThread.ctx with
          ContextFlags := CONTEXT_DEBUG_REGISTERS, Dr0 := 0x401000, Dr7 := 0x55 } }
      (by decide) (by decide)
  simp only [System.contextOf, h1, Option.map_some', h2]

/-- C5 (as stated) fails: the demo session programs slot 0 (`0x401000`) onto the
threads as `StartHandlingBreakpoints` does, then `Stop()` runs; thread 2 still
has `Dr0 = 0x401000` and the Dr7 enable bits `0x55`. -/
theorem stop_leaves_debug_registers_programmed :
    (((demoSession identityCallback).Stop
        ((demoSession identityCallback).UpdateBreakpoints demoSystem)).2.contextOf 2).map
      (fun c => (c.Dr0, c.Dr7 &&& 0x55)) = some (0x401000, 0x55) := by
  decide

/-! ## The loops over the breakpoint collections -/

theorem SetThreadContext_isSome (sys : System) (h : Option Nat) (ctx : CONTEXT) (i : Nat) :
    ((SetThreadContext sys h ctx).threads i).isSome = (sys.threads i).isSome := by
  cases h with
  | none => rfl
  | some tid =>
    cases ht : sys.threads tid with
    | none => simp only [SetThreadContext, ht]
    | some t =>
      by_cases hs : t.setOk = true
      · simp only [SetThreadContext, ht, hs, if_true]
        by_cases hi : i = tid
        · subst hi; simp [ht]
        · simp [hi]
      · simp only [SetThreadContext, ht, hs]
        rfl

theorem hwStep_open (bp : Breakpoint) (e : DEBUG_EVENT) (sys : System) (b : Bool)
    (t : ThreadState) (ha : e.ExceptionAddress = bp.address)
    (ht : sys.threads e.dwThreadId = some t) :
    hwStep bp e sys b =
      match bp.CallbackWithContext (capturedContext sys e.dwThreadId) with
      | .error err => .raised err sys
      | .ok c =>
        .ok (SetThreadContext sys (some e.dwThreadId) { c with EFlags := c.EFlags ||| 0x10000 })
          true := by
  simp only [hwStep, ha, if_true, OpenThread, ht]
  rfl

theorem hwStep_closed (bp : Breakpoint) (e : DEBUG_EVENT) (sys : System) (b : Bool)
    (ht : sys.threads e.dwThreadId = none) :
    hwStep bp e sys b = .ok sys b := by
  unfold hwStep
  split
  · simp only [OpenThread, ht]
  · rfl

theorem hwStep_other (bp : Breakpoint) (e : DEBUG_EVENT) (sys : System) (b : Bool)
    (ha : ¬ e.ExceptionAddress = bp.address) :
    hwStep bp e sys b = .ok sys b := by
  simp only [hwStep, ha, if_false]

theorem hwStep_frame (bp : Breakpoint) (e : DEBUG_EVENT) (sys : System) (b : Bool) :
    (hwStep bp e sys b).system =
      { sys with threads := (hwStep bp e sys b).system.threads } := by
  by_cases ha : e.ExceptionAddress = bp.address
  · cases ht : sys.threads e.dwThreadId with
    | none => rw [hwStep_closed bp e sys b ht]; rfl
    | some t =>
      rw [hwStep_open bp e sys b t ha ht]
      cases bp.CallbackWithContext (capturedContext sys e.dwThreadId) with
      | error err => rfl
      | ok c =>
        simp only [HitResult.system]
        rw [SetThreadContext_frame]
  · rw [hwStep_other bp e sys b ha]; rfl

theorem hwStep_ok (bp : Breakpoint) (e : DEBUG_EVENT) (sys sys' : System) (b b' : Bool)
    (h : hwStep bp e sys b = .ok sys' b') :
    (b' = true ↔ b = true ∨
      (e.ExceptionAddress = bp.address ∧ (sys.threads e.dwThreadId).isSome = true)) ∧
    (sys'.threads e.dwThreadId).isSome = (sys.threads e.dwThreadId).isSome := by
  by_cases ha : e.ExceptionAddress = bp.address
  · cases ht : sys.threads e.dwThreadId with
    | none =>
      rw [hwStep_closed bp e sys b ht] at h
      cases h
      simp [ht]
    | some t =>
      rw [hwStep_open bp e sys b t ha ht] at h
      cases hc : bp.CallbackWithContext (capturedContext sys e.dwThreadId) with
      | error err => rw [hc] at h; cases h
      | ok c =>
        rw [hc] at h
        cases h
        refine ⟨by simp [ha], ?_⟩
        rw [SetThreadContext_isSome, ht]
  · rw [hwStep_other bp e sys b ha] at h
    cases h
    simp [ha]

theorem hwStep_skip (bp : Breakpoint) (e : DEBUG_EVENT) (sys : System) (b : Bool)
    (h : ¬ (e.ExceptionAddress = bp.address ∧ (sys.threads e.dwThreadId).isSome = true)) :
    hwStep bp e sys b = .ok sys b := by
  by_cases ha : e.ExceptionAddress = bp.address
  · cases ht : sys.threads e.dwThreadId with
    | none => exact hwStep_closed bp e sys b ht
    | some t => exact absurd ⟨ha, by simp [ht]⟩ h
  · exact hwStep_other bp e sys b ha

theorem hwLoop_frame (e : DEBUG_EVENT) (l : List Breakpoint) (sys : System) (b : Bool) :
    (hwLoop e l sys b).system =
      { sys with threads := (hwLoop e l sys b).system.threads } := by
  induction l generalizing sys b with
  | nil => rfl
  | cons bp rest ih =>
    have hstep := hwStep_frame bp e sys b
    simp only [hwLoop]
    cases hs : hwStep bp e sys b with
    | ok sys1 b1 =>
      rw [hs] at hstep
      simp only [HitResult.system] at hstep
      simp only []
      rw [ih sys1 b1, hstep]
    | raised err sys1 =>
      rw [hs] at hstep
      exact hstep

theorem hwLoop_ok (e : DEBUG_EVENT) (l : List Breakpoint) (sys sys' : System) (b b' : Bool)
    (h : hwLoop e l sys b = .ok sys' b') :
    (b' = true ↔ b = true ∨
      ((∃ bp ∈ l, e.ExceptionAddress = bp.address) ∧ (sys.threads e.dwThreadId).isSome = true)) := by
  induction l generalizing sys b with
  | nil =>
    simp only [hwLoop] at h
    cases h
    simp
  | cons bp rest ih =>
    simp only [hwLoop] at h
    cases hs : hwStep bp e sys b with
    | raised err sys1 => rw [hs] at h; cases h
    | ok sys1 b1 =>
      rw [hs] at h
      have h1 := hwStep_ok bp e sys sys1 b b1 hs
      have h2 := ih sys1 b1 h
      rw [h2, h1.1, h1.2]
      simp only [List.mem_cons, exists_eq_or_imp]
      tauto

theorem hwLoop_skip (e : DEBUG_EVENT) (l : List Breakpoint) (sys : System) (b : Bool)
    (h : ¬ ((∃ bp ∈ l, e.ExceptionAddress = bp.address) ∧
      (sys.threads e.dwThreadId).isSome = true)) :
    hwLoop e l sys b = .ok sys b := by
  induction l generalizing sys b with
  | nil => rfl
  | cons bp rest ih =>
    have h1 : ¬ (e.ExceptionAddress = bp.address ∧ (sys.threads e.dwThreadId).isSome = true) :=
      fun hc => h ⟨⟨bp, List.mem_cons_self _ _, hc.1⟩, hc.2⟩
    have h2 : ¬ ((∃ x ∈ rest, e.ExceptionAddress = x.address) ∧
        (sys.threads e.dwThreadId).isSome = true) := by
      rintro ⟨⟨x, hx, hxa⟩, ho⟩
      exact h ⟨⟨x, List.mem_cons_of_mem _ hx, hxa⟩, ho⟩
    simp only [hwLoop, hwStep_skip bp e sys b h1]
    exact ih sys b h2

theorem swStep_open (s : DebugHandler) (bp : Breakpoint) (e : DEBUG_EVENT) (sys : System)
    (b : Bool) (t : ThreadState) (ha : e.ExceptionAddress = bp.address)
    (ht : sys.threads e.dwThreadId = some t) :
    swStep s bp e sys b =
      match bp.CallbackWithContext (capturedContext sys e.dwThreadId) with
      | .error err => .raised err (restoreMatching bp s.swBreakpoints sys)
      | .ok c =>
        .ok (SetThreadContext (restoreMatching bp s.swBreakpoints sys) (some e.dwThreadId)
          { c with Rip := (c.Rip + (2 ^ 64 - 1)) % 2 ^ 64, EFlags := c.EFlags ||| 0x10000 })
          true := by
  have hfr := restoreMatching_frame bp s.swBreakpoints sys
  have ht2 : (restoreMatching bp s.swBreakpoints sys).threads e.dwThreadId = some t := by
    rw [hfr]; exact ht
  have hcap : GetThreadContext (restoreMatching bp s.swBreakpoints sys) (some e.dwThreadId)
      { (restoreMatching bp s.swBreakpoints sys).uninit with ContextFlags := CONTEXT_FULL } =
      GetThreadContext sys (some e.dwThreadId) { sys.uninit with ContextFlags := CONTEXT_FULL } := by
    rw [hfr]; rfl
  simp only [swStep, ha, if_true, OpenThread, DebugHandler.RemoveSoftwareBreakpoint, ht2, hcap]
  rfl

theorem swStep_closed (s : DebugHandler) (bp : Breakpoint) (e : DEBUG_EVENT) (sys : System)
    (b : Bool) (ha : e.ExceptionAddress = bp.address)
    (ht : sys.threads e.dwThreadId = none) :
    swStep s bp e sys b = .ok (restoreMatching bp s.swBreakpoints sys) true := by
  have hfr := restoreMatching_frame bp s.swBreakpoints sys
  have ht2 : (restoreMatching bp s.swBreakpoints sys).threads e.dwThreadId = none := by
    rw [hfr]; exact ht
  simp only [swStep, ha, if_true, OpenThread, DebugHandler.RemoveSoftwareBreakpoint, ht2]

theorem swStep_frame (s : DebugHandler) (bp : Breakpoint) (e : DEBUG_EVENT) (sys : System)
    (b : Bool) :
    (swStep s bp e sys b).system =
      { sys with threads := (swStep s bp e sys b).system.threads,
                 mem := (swStep s bp e sys b).system.mem } := by
  have hfr := restoreMatching_frame bp s.swBreakpoints sys
  by_cases ha : e.ExceptionAddress = bp.address
  · cases ht : sys.threads e.dwThreadId with
    | none =>
      rw [swStep_closed s bp e sys b ha ht]
      simp only [HitResult.system]
      rw [hfr]
    | some t =>
      rw [swStep_open s bp e sys b t ha ht]
      cases bp.CallbackWithContext (capturedContext sys e.dwThreadId) with
      | error err =>
        simp only [HitResult.system]
        rw [hfr]
      | ok c =>
        simp only [HitResult.system]
        rw [SetThreadContext_frame, hfr]
  · simp only [swStep, ha, if_false]
    rfl

theorem swStep_mem (s : DebugHandler) (bp : Breakpoint) (e : DEBUG_EVENT) (sys : System)
    (b : Bool) :
    (swStep s bp e sys b).system.mem =
      if e.ExceptionAddress = bp.address then (restoreMatching bp s.swBreakpoints sys).mem
      else sys.mem := by
  by_cases ha : e.ExceptionAddress = bp.address
  · rw [if_pos ha]
    cases ht : sys.threads e.dwThreadId with
    | none => rw [swStep_closed s bp e sys b ha ht]; rfl
    | some t =>
      rw [swStep_open s bp e sys b t ha ht]
      cases bp.CallbackWithContext (capturedContext sys e.dwThreadId) with
      | error err => rfl
      | ok c =>
        simp only [HitResult.system]
        rw [SetThreadContext_frame]
  · rw [if_neg ha]
    simp only [swStep, ha, if_false]
    rfl

theorem swStep_ok (s : DebugHandler) (bp : Breakpoint) (e : DEBUG_EVENT) (sys sys' : System)
    (b b' : Bool) (h : swStep s bp e sys b = .ok sys' b') :
    (b' = true ↔ b = true ∨ e.ExceptionAddress = bp.address) := by
  by_cases ha : e.ExceptionAddress = bp.address
  · cases ht : sys.threads e.dwThreadId with
    | none =>
      rw [swStep_closed s bp e sys b ha ht] at h
      cases h
      simp [ha]
    | some t =>
      rw [swStep_open s bp e sys b t ha ht] at h
      cases hc : bp.CallbackWithContext (capturedContext sys e.dwThreadId) with
      | error err => rw [hc] at h; cases h
      | ok c =>
        rw [hc] at h
        cases h
        simp [ha]
  · simp only [swStep, ha, if_false] at h
    cases h
    simp [ha]

theorem swStep_skip (s : DebugHandler) (bp : Breakpoint) (e : DEBUG_EVENT) (sys : System)
    (b : Bool) (h : ¬ e.ExceptionAddress = bp.address) :
    swStep s bp e sys b = .ok sys b := by
  simp only [swStep, h, if_false]

theorem swLoop_frame (s : DebugHandler) (e : DEBUG_EVENT) (l : List Breakpoint) (sys : System)
    (b : Bool) :
    (swLoop s e l sys b).system =
      { sys with threads := (swLoop s e l sys b).system.threads,
                 mem := (swLoop s e l sys b).system.mem } := by
  induction l generalizing sys b with
  | nil => rfl
  | cons bp rest ih =>
    have hstep := swStep_frame s bp e sys b
    simp only [swLoop]
    cases hs : swStep s bp e sys b with
    | ok sys1 b1 =>
      rw [hs] at hstep
      simp only [HitResult.system] at hstep
      simp only []
      rw [ih sys1 b1, hstep]
    | raised err sys1 =>
      rw [hs] at hstep
      exact hstep

theorem swLoop_ok (s : DebugHandler) (e : DEBUG_EVENT) (l : List Breakpoint) (sys sys' : System)
    (b b' : Bool) (h : swLoop s e l sys b = .ok sys' b') :
    (b' = true ↔ b = true ∨ ∃ bp ∈ l, e.ExceptionAddress = bp.address) := by
  induction l generalizing sys b with
  | nil =>
    simp only [swLoop] at h
    cases h
    simp
  | cons bp rest ih =>
    simp only [swLoop] at h
    cases hs : swStep s bp e sys b with
    | raised err sys1 => rw [hs] at h; cases h
    | ok sys1 b1 =>
      rw [hs] at h
      have h1 := swStep_ok s bp e sys sys1 b b1 hs
      have h2 := ih sys1 b1 h
      rw [h2, h1]
      simp only [List.mem_cons, exists_eq_or_imp]
      tauto

theorem swLoop_skip (s : DebugHandler) (e : DEBUG_EVENT) (l : List Breakpoint) (sys : System)
    (b : Bool) (h : ¬ ∃ bp ∈ l, e.ExceptionAddress = bp.address) :
    swLoop s e l sys b = .ok sys b := by
  induction l generalizing sys b with
  | nil => rfl
  | cons bp rest ih =>
    have h1 : ¬ e.ExceptionAddress = bp.address :=
      fun hc => h ⟨bp, List.mem_cons_self _ _, hc⟩
    have h2 : ¬ ∃ x ∈ rest, e.ExceptionAddress = x.address := by
      rintro ⟨x, hx, hxa⟩
      exact h ⟨x, List.mem_cons_of_mem _ hx, hxa⟩
    simp only [swLoop, swStep_skip s bp e sys b h1]
    exact ih sys b h2

theorem swLoop_mem_other (s : DebugHandler) (e : DEBUG_EVENT) (l : List Breakpoint)
    (sys : System) (b : Bool) (a : Nat) (ha : a ≠ e.ExceptionAddress) :
    (swLoop s e l sys b).system.mem a = sys.mem a := by
  induction l generalizing sys b with
  | nil => rfl
  | cons bp rest ih =>
    have hm := swStep_mem s bp e sys b
    have hstep : (swStep s bp e sys b).system.mem a = sys.mem a := by
      rw [hm]
      split
      · rename_i heq
        exact restoreMatching_mem_other bp _ sys a (by rw [← heq]; exact ha)
      · rfl
    simp only [swLoop]
    cases hs : swStep s bp e sys b with
    | ok sys1 b1 =>
      rw [hs] at hstep
      simp only [HitResult.system] at hstep
      simp only []
      rw [ih sys1 b1, hstep]
    | raised err sys1 =>
      rw [hs] at hstep
      exact hstep

theorem swLoop_mem_hit (s : DebugHandler) (e : DEBUG_EVENT) (l : List Breakpoint)
    (sys sys' : System) (b b' : Bool) (ob : Nat)
    (hw : sys.writable e.ExceptionAddress = true)
    (hex : ∃ bp ∈ s.swBreakpoints, bp.address = e.ExceptionAddress)
    (hob : ∀ bp ∈ s.swBreakpoints, bp.address = e.ExceptionAddress → bp.originalByte = ob)
    (h : swLoop s e l sys b = .ok sys' b')
    (hpre : sys.mem e.ExceptionAddress = ob ∨ ∃ bp ∈ l, e.ExceptionAddress = bp.address) :
    sys'.mem e.ExceptionAddress = ob := by
  induction l generalizing sys b with
  | nil =>
    simp only [swLoop] at h
    cases h
    rcases hpre with hp | ⟨x, hx, _⟩
    · exact hp
    · cases hx
  | cons bp rest ih =>
    simp only [swLoop] at h
    have hm := swStep_mem s bp e sys b
    have hf := swStep_frame s bp e sys b
    cases hs : swStep s bp e sys b with
    | raised err sys1 => rw [hs] at h; cases h
    | ok sys1 b1 =>
      rw [hs] at h hm hf
      simp only [HitResult.system] at hm hf
      have hw1 : sys1.writable e.ExceptionAddress = true := by rw [hf]; exact hw
      apply ih sys1 b1 hw1 h
      by_cases ha : e.ExceptionAddress = bp.address
      · left
        rw [hm, if_pos ha, ha]
        have hex' : ∃ x ∈ s.swBreakpoints, x.address = bp.address := by rw [← ha]; exact hex
        rw [restoreMatching_mem bp _ sys ob (by rw [← ha]; exact hw)
          (fun x hx hxa => hob x hx (by rw [ha]; exact hxa)), if_pos hex']
      · rcases hpre with hp | ⟨x, hx, hxa⟩
        · left
          rw [hm, if_neg ha]
          exact hp
        · rcases List.mem_cons.mp hx with rfl | hx
          · exact absurd hxa ha
          · exact Or.inr ⟨x, hx, hxa⟩

/-! ## The switch on one debug event -/

theorem mem_hwList (s : DebugHandler) (bp : Breakpoint) :
    bp ∈ s.hwList ↔ ∃ i, s.hwBreakpoints i = bp := by
  simp only [DebugHandler.hwList, List.mem_cons, List.mem_singleton, List.not_mem_nil, or_false]
  constructor
  · rintro (h | h | h | h)
    · exact ⟨0, h.symm⟩
    · exact ⟨1, h.symm⟩
    · exact ⟨2, h.symm⟩
    · exact ⟨3, h.symm⟩
  · rintro ⟨i, hi⟩
    fin_cases i
    · exact Or.inl hi.symm
    · exact Or.inr (Or.inl hi.symm)
    · exact Or.inr (Or.inr (Or.inl hi.symm))
    · exact Or.inr (Or.inr (Or.inr hi.symm))

theorem single_step_ne_breakpoint : EXCEPTION_BREAKPOINT ≠ EXCEPTION_SINGLE_STEP := by decide

theorem dispatch_single_step (s : DebugHandler) (e : DEBUG_EVENT) (sys : System) (b : Bool)
    (h1 : e.dwDebugEventCode = EXCEPTION_DEBUG_EVENT)
    (h2 : e.ExceptionCode = EXCEPTION_SINGLE_STEP) :
    dispatchDebugEvent s e sys b =
      match hwLoop e s.hwList sys b with
      | .raised err sys => .raised err sys
      | .ok sys b =>
        if b then
          .continued (ContinueDebugEvent sys e.dwProcessId e.dwThreadId DBG_CONTINUE)
            false DBG_CONTINUE
        else
          .continued
            (ContinueDebugEvent sys e.dwProcessId e.dwThreadId DBG_EXCEPTION_NOT_HANDLED)
            b DBG_EXCEPTION_NOT_HANDLED := by
  simp only [dispatchDebugEvent, h1, h2, if_true]

theorem dispatch_breakpoint (s : DebugHandler) (e : DEBUG_EVENT) (sys : System) (b : Bool)
    (h1 : e.dwDebugEventCode = EXCEPTION_DEBUG_EVENT)
    (h2 : e.ExceptionCode = EXCEPTION_BREAKPOINT) :
    dispatchDebugEvent s e sys b =
      match swLoop s e s.swBreakpoints sys b with
      | .raised err sys => .raised err sys
      | .ok sys b =>
        if b then
          .continued (ContinueDebugEvent sys e.dwProcessId e.dwThreadId DBG_CONTINUE)
            false DBG_CONTINUE
        else
          .continued
            (ContinueDebugEvent sys e.dwProcessId e.dwThreadId DBG_EXCEPTION_NOT_HANDLED)
            b DBG_EXCEPTION_NOT_HANDLED := by
  simp only [dispatchDebugEvent, h1, h2, if_true, single_step_ne_breakpoint, if_false]

theorem dispatch_other_exception (s : DebugHandler) (e : DEBUG_EVENT) (sys : System)
    (h1 : e.dwDebugEventCode = EXCEPTION_DEBUG_EVENT)
    (h2 : e.ExceptionCode ≠ EXCEPTION_SINGLE_STEP)
    (h3 : e.ExceptionCode ≠ EXCEPTION_BREAKPOINT) :
    dispatchDebugEvent s e sys false =
      .continued
        (ContinueDebugEvent sys e.dwProcessId e.dwThreadId DBG_EXCEPTION_NOT_HANDLED)
        false DBG_EXCEPTION_NOT_HANDLED := by
  simp only [dispatchDebugEvent, h1, h2, h3, if_true, if_false]
  rfl

theorem dispatch_other_event (s : DebugHandler) (e : DEBUG_EVENT) (sys : System) (b : Bool)
    (h1 : e.dwDebugEventCode ≠ EXCEPTION_DEBUG_EVENT) :
    dispatchDebugEvent s e sys b =
      .continued
        (ContinueDebugEvent sys e.dwProcessId e.dwThreadId DBG_EXCEPTION_NOT_HANDLED)
        b DBG_EXCEPTION_NOT_HANDLED := by
  simp only [dispatchDebugEvent, h1, if_false]

theorem dispatch_not_matches (s : DebugHandler) (e : DEBUG_EVENT) (sys : System)
    (h : ¬ s.matchesEvent sys e) :
    dispatchDebugEvent s e sys false =
      .continued
        (ContinueDebugEvent sys e.dwProcessId e.dwThreadId DBG_EXCEPTION_NOT_HANDLED)
        false DBG_EXCEPTION_NOT_HANDLED := by
  by_cases h1 : e.dwDebugEventCode = EXCEPTION_DEBUG_EVENT
  · by_cases h2 : e.ExceptionCode = EXCEPTION_SINGLE_STEP
    · have hskip : ¬ ((∃ bp ∈ s.hwList, e.ExceptionAddress = bp.address) ∧
          (sys.threads e.dwThreadId).isSome = true) := by
        rintro ⟨⟨bp, hbp, hba⟩, ho⟩
        obtain ⟨i, hi⟩ := (mem_hwList s bp).mp hbp
        obtain ⟨t, ht⟩ := Option.isSome_iff_exists.mp ho
        exact h ⟨h1, Or.inl ⟨h2, ⟨i, by rw [hi, hba]⟩, t, ht⟩⟩
      rw [dispatch_single_step s e sys false h1 h2, hwLoop_skip e _ sys false hskip]
      rfl
    · by_cases h3 : e.ExceptionCode = EXCEPTION_BREAKPOINT
      · have hskip : ¬ ∃ bp ∈ s.swBreakpoints, e.ExceptionAddress = bp.address := by
          rintro ⟨bp, hbp, hba⟩
          exact h ⟨h1, Or.inr ⟨h3, bp, hbp, hba.symm⟩⟩
        rw [dispatch_breakpoint s e sys false h1 h3, swLoop_skip s e _ sys false hskip]
        rfl
      · exact dispatch_other_exception s e sys h1 h2 h3
  · exact dispatch_other_event s e sys false h1

theorem dispatch_matches (s : DebugHandler) (e : DEBUG_EVENT) (sys sys' : System) (b' : Bool)
    (st : Nat) (h : s.matchesEvent sys e)
    (hd : dispatchDebugEvent s e sys false = .continued sys' b' st) :
    st = DBG_CONTINUE ∧ b' = false := by
  obtain ⟨h1, hcase⟩ := h
  rcases hcase with ⟨h2, ⟨i, hi⟩, t, ht⟩ | ⟨h3, bp, hbp, hba⟩
  · rw [dispatch_single_step s e sys false h1 h2] at hd
    cases hr : hwLoop e s.hwList sys false with
    | raised err sys1 => rw [hr] at hd; cases hd
    | ok sys1 b1 =>
      rw [hr] at hd
      have hb : b1 = true :=
        (hwLoop_ok e _ sys sys1 false b1 hr).mpr
          (Or.inr ⟨⟨s.hwBreakpoints i, (mem_hwList s _).mpr ⟨i, rfl⟩, hi.symm⟩, by simp [ht]⟩)
      subst hb
      simp only [if_true] at hd
      cases hd
      exact ⟨rfl, rfl⟩
  · rw [dispatch_breakpoint s e sys false h1 h3] at hd
    cases hr : swLoop s e s.swBreakpoints sys false with
    | raised err sys1 => rw [hr] at hd; cases hd
    | ok sys1 b1 =>
      rw [hr] at hd
      have hb : b1 = true :=
        (swLoop_ok s e _ sys sys1 false b1 hr).mpr (Or.inr ⟨bp, hbp, hba.symm⟩)
      subst hb
      simp only [if_true] at hd
      cases hd
      exact ⟨rfl, rfl⟩

/-- The classification the `switch` computes: an event whose handling reaches
`ContinueDebugEvent` is continued with `DBG_CONTINUE` if and only if it is an
exception event that is either a single-step whose `ExceptionAddress` equals the
address of one of the four hardware slots and whose thread `OpenThread` opens,
or a breakpoint exception whose `ExceptionAddress` equals the address of a
breakpoint of the software collection; every other event is continued, always,
with `DBG_EXCEPTION_NOT_HANDLED`. -/
theorem event_classification (s : DebugHandler) (e : DEBUG_EVENT) (sys : System) :
    (∀ sys' b' st, dispatchDebugEvent s e sys false = .continued sys' b' st →
      (st = DBG_CONTINUE ↔ s.matchesEvent sys e) ∧
      (st = DBG_CONTINUE ∨ st = DBG_EXCEPTION_NOT_HANDLED) ∧ b' = false) ∧
    (¬ s.matchesEvent sys e →
      dispatchDebugEvent s e sys false =
        .continued
          (ContinueDebugEvent sys e.dwProcessId e.dwThreadId DBG_EXCEPTION_NOT_HANDLED)
          false DBG_EXCEPTION_NOT_HANDLED) := by
  refine ⟨?_, dispatch_not_matches s e sys⟩
  intro sys' b' st hd
  by_cases hm : s.matchesEvent sys e
  · have h := dispatch_matches s e sys sys' b' st hm hd
    exact ⟨⟨fun _ => hm, fun _ => h.1⟩, Or.inl h.1, h.2⟩
  · rw [dispatch_not_matches s e sys hm] at hd
    cases hd
    refine ⟨⟨fun h => absurd h (by decide), fun h => absurd h hm⟩, Or.inr rfl, rfl⟩

/-- The classification at concrete events of the demo session: a breakpoint
exception at `0x401000` is continued with `DBG_CONTINUE`, a thread-creation event
with `DBG_EXCEPTION_NOT_HANDLED`. -/
theorem event_classification_example :
    (dispatchDebugEvent (demoSession identityCallback) breakpointEvent demoSystem false).status =
      some DBG_CONTINUE ∧
    (dispatchDebugEvent (demoSession identityCallback) createThreadEvent demoSystem false).status =
      some DBG_EXCEPTION_NOT_HANDLED := by
  refine ⟨by decide, ?_⟩
  rw [(event_classification (demoSession identityCallback) createThreadEvent demoSystem).2
    (fun h => absurd h.1 (by decide))]
  rfl

/-- C8 (code evaluated at the failing input). A single-step exception at
`0x401000`, the address of hardware slot 0, arrives for thread 9, which
`OpenThread` does not open: the event is continued with
`DBG_EXCEPTION_NOT_HANDLED`, not `DBG_CONTINUE`.  The software branch, given a
breakpoint exception at the address of a software breakpoint for the same
thread, continues it with `DBG_CONTINUE`. -/
theorem single_step_on_unopened_thread_not_handled :
    ((demoSession identityCallback).hwBreakpoints 0).address = 0x401000 ∧
    OpenThread demoSystem 9 = none ∧
    (dispatchDebugEvent (demoSession identityCallback)
        { dwDebugEventCode := EXCEPTION_DEBUG_EVENT, dwProcessId := 7, dwThreadId := 9,
          ExceptionCode := EXCEPTION_SINGLE_STEP, ExceptionAddress := 0x401000 }
        demoSystem false).status = some DBG_EXCEPTION_NOT_HANDLED ∧
    (dispatchDebugEvent (demoSession identityCallback)
        { dwDebugEventCode := EXCEPTION_DEBUG_EVENT, dwProcessId := 7, dwThreadId := 9,
          ExceptionCode := EXCEPTION_BREAKPOINT, ExceptionAddress := 0x401000 }
        demoSystem false).status = some DBG_CONTINUE := by
  decide

theorem dispatch_system_frame (s : DebugHandler) (e : DEBUG_EVENT) (sys : System) (b : Bool) :
    (dispatchDebugEvent s e sys b).system =
      { sys with threads := (dispatchDebugEvent s e sys b).system.threads,
                 mem := (dispatchDebugEvent s e sys b).system.mem,
                 continued := (dispatchDebugEvent s e sys b).system.continued } := by
  by_cases h1 : e.dwDebugEventCode = EXCEPTION_DEBUG_EVENT
  · by_cases h2 : e.ExceptionCode = EXCEPTION_SINGLE_STEP
    · rw [dispatch_single_step s e sys b h1 h2]
      have hf := hwLoop_frame e s.hwList sys b
      cases hr : hwLoop e s.hwList sys b with
      | raised err sys1 =>
        rw [hr] at hf
        simp only [HitResult.system] at hf
        simp only [EventResult.system]
        rw [hf]
      | ok sys1 b1 =>
        rw [hr] at hf
        simp only [HitResult.system] at hf
        cases b1 <;> simp only [EventResult.system, ContinueDebugEvent, if_true, if_false,
          Bool.false_eq_true] <;> rw [hf]
    · by_cases h3 : e.ExceptionCode = EXCEPTION_BREAKPOINT
      · rw [dispatch_breakpoint s e sys b h1 h3]
        have hf := swLoop_frame s e s.swBreakpoints sys b
        cases hr : swLoop s e s.swBreakpoints sys b with
        | raised err sys1 =>
          rw [hr] at hf
          simp only [HitResult.system] at hf
          simp only [EventResult.system]
          rw [hf]
        | ok sys1 b1 =>
          rw [hr] at hf
          simp only [HitResult.system] at hf
          cases b1 <;> simp only [EventResult.system, ContinueDebugEvent, if_true, if_false,
            Bool.false_eq_true] <;> rw [hf]
      · simp only [dispatchDebugEvent, h1, h2, h3, if_true, if_false]
        cases b <;> rfl
  · rw [dispatch_other_event s e sys b h1]
    rfl

theorem dispatch_mem_other (s : DebugHandler) (e : DEBUG_EVENT) (sys : System) (b : Bool)
    (a : Nat)
    (h : ¬ (e.dwDebugEventCode = EXCEPTION_DEBUG_EVENT ∧ e.ExceptionCode = EXCEPTION_BREAKPOINT ∧
      e.ExceptionAddress = a)) :
    (dispatchDebugEvent s e sys b).system.mem a = sys.mem a := by
  by_cases h1 : e.dwDebugEventCode = EXCEPTION_DEBUG_EVENT
  · by_cases h2 : e.ExceptionCode = EXCEPTION_SINGLE_STEP
    · rw [dispatch_single_step s e sys b h1 h2]
      have hf := hwLoop_frame e s.hwList sys b
      cases hr : hwLoop e s.hwList sys b with
      | raised err sys1 =>
        rw [hr] at hf
        simp only [HitResult.system] at hf
        simp only [EventResult.system]
        rw [hf]
      | ok sys1 b1 =>
        rw [hr] at hf
        simp only [HitResult.system] at hf
        cases b1 <;> simp only [EventResult.system, ContinueDebugEvent, if_true, if_false,
          Bool.false_eq_true] <;> rw [hf]
    · by_cases h3 : e.ExceptionCode = EXCEPTION_BREAKPOINT
      · have ha : a ≠ e.ExceptionAddress := fun hc => h ⟨h1, h3, hc.symm⟩
        rw [dispatch_breakpoint s e sys b h1 h3]
        have hm := swLoop_mem_other s e s.swBreakpoints sys b a ha
        cases hr : swLoop s e s.swBreakpoints sys b with
        | raised err sys1 =>
          rw [hr] at hm
          exact hm
        | ok sys1 b1 =>
          rw [hr] at hm
          simp only [HitResult.system] at hm
          cases b1 <;> simp only [EventResult.system, ContinueDebugEvent, if_true, if_false,
            Bool.false_eq_true] <;> exact hm
      · simp only [dispatchDebugEvent, h1, h2, h3, if_true, if_false]
        cases b <;> rfl
  · rw [dispatch_other_event s e sys b h1]
    rfl

theorem dispatch_mem_hit (s : DebugHandler) (e : DEBUG_EVENT) (sys sys' : System) (b b' : Bool)
    (st ob : Nat)
    (h1 : e.dwDebugEventCode = EXCEPTION_DEBUG_EVENT)
    (h3 : e.ExceptionCode = EXCEPTION_BREAKPOINT)
    (hw : sys.writable e.ExceptionAddress = true)
    (hex : ∃ bp ∈ s.swBreakpoints, bp.address = e.ExceptionAddress)
    (hob : ∀ bp ∈ s.swBreakpoints, bp.address = e.ExceptionAddress → bp.originalByte = ob)
    (hd : dispatchDebugEvent s e sys b = .continued sys' b' st) :
    sys'.mem e.ExceptionAddress = ob := by
  rw [dispatch_breakpoint s e sys b h1 h3] at hd
  obtain ⟨bp, hbp, hba⟩ := hex
  cases hr : swLoop s e s.swBreakpoints sys b with
  | raised err sys1 => rw [hr] at hd; cases hd
  | ok sys1 b1 =>
    rw [hr] at hd
    have hm := swLoop_mem_hit s e _ sys sys1 b b1 ob hw ⟨bp, hbp, hba⟩ hob hr
      (Or.inr ⟨bp, hbp, hba.symm⟩)
    cases b1
    · simp only [Bool.false_eq_true, if_false] at hd
      cases hd
      exact hm
    · simp only [if_true] at hd
      cases hd
      exact hm

/-! ## The event loop -/

theorem dispatch_raised_frame (s : DebugHandler) (e : DEBUG_EVENT) (sys sys' : System) (b : Bool)
    (err : PyError) (h : dispatchDebugEvent s e sys b = .raised err sys') :
    sys'.continued = sys.continued ∧ sys'.writable = sys.writable := by
  by_cases h1 : e.dwDebugEventCode = EXCEPTION_DEBUG_EVENT
  · by_cases h2 : e.ExceptionCode = EXCEPTION_SINGLE_STEP
    · rw [dispatch_single_step s e sys b h1 h2] at h
      have hf := hwLoop_frame e s.hwList sys b
      cases hr : hwLoop e s.hwList sys b with
      | raised err1 sys1 =>
        rw [hr] at hf h
        simp only [HitResult.system] at hf
        cases h
        rw [hf]
        exact ⟨rfl, rfl⟩
      | ok sys1 b1 =>
        rw [hr] at h
        cases b1 <;> simp at h
    · by_cases h3 : e.ExceptionCode = EXCEPTION_BREAKPOINT
      · rw [dispatch_breakpoint s e sys b h1 h3] at h
        have hf := swLoop_frame s e s.swBreakpoints sys b
        cases hr : swLoop s e s.swBreakpoints sys b with
        | raised err1 sys1 =>
          rw [hr] at hf h
          simp only [HitResult.system] at hf
          cases h
          rw [hf]
          exact ⟨rfl, rfl⟩
        | ok sys1 b1 =>
          rw [hr] at h
          cases b1 <;> simp at h
      · simp only [dispatchDebugEvent, h1, h2, h3, if_true, if_false] at h
        cases b <;> simp at h
  · rw [dispatch_other_event s e sys b h1] at h
    cases h

theorem eventLoop_cons (w : WaitResult) (rest : List WaitResult) (s : DebugHandler)
    (sys : System) (b : Bool) (hflag : s.bHandleBreakpoints = true)
    (hstop : w.stopCalled = false) :
    eventLoop (w :: rest) s sys b =
      match dispatchDebugEvent s w.event (armSoftwareBreakpoints s s.swBreakpoints sys) b with
      | .raised err sys1 => .raised err s sys1
      | .continued sys1 b1 _ => eventLoop rest s sys1 b1 := by
  simp only [eventLoop, hflag, hstop, if_true, Bool.false_eq_true, if_false]

theorem eventLoop_last (w : WaitResult) (s : DebugHandler) (sys : System) (b : Bool)
    (hflag : s.bHandleBreakpoints = true) (hstop : w.stopCalled = true) :
    eventLoop [w] s sys b =
      match dispatchDebugEvent (s.Stop (armSoftwareBreakpoints s s.swBreakpoints sys)).1 w.event
          (s.Stop (armSoftwareBreakpoints s s.swBreakpoints sys)).2 b with
      | .raised err sys1 =>
        .raised err (s.Stop (armSoftwareBreakpoints s s.swBreakpoints sys)).1 sys1
      | .continued sys1 _ _ =>
        .exited (s.Stop (armSoftwareBreakpoints s s.swBreakpoints sys)).1 sys1 := by
  have hs := (Stop_session s (armSoftwareBreakpoints s s.swBreakpoints sys)).1
  simp only [eventLoop, hflag, hstop, if_true]
  cases dispatchDebugEvent (s.Stop (armSoftwareBreakpoints s s.swBreakpoints sys)).1 w.event
      (s.Stop (armSoftwareBreakpoints s s.swBreakpoints sys)).2 b with
  | raised err sys1 => rfl
  | continued sys1 b1 st => simp only [hs, Bool.false_eq_true, if_false]

theorem eventLoop_final_byte (bp : Breakpoint) (pre : List WaitResult) (w : WaitResult)
    (s s' : DebugHandler) (sys sys' : System) (b : Bool)
    (hflag : s.bHandleBreakpoints = true)
    (hbp : bp ∈ s.swBreakpoints)
    (hob : ∀ x ∈ s.swBreakpoints, x.address = bp.address → x.originalByte = bp.originalByte)
    (hwr : ∀ x ∈ s.swBreakpoints, sys.writable x.address = true)
    (hpre : ∀ x ∈ pre, x.stopCalled = false) (hw : w.stopCalled = true)
    (hexit : eventLoop (pre ++ [w]) s sys b = .exited s' sys') :
    sys'.mem bp.address =
      if w.event.dwDebugEventCode = EXCEPTION_DEBUG_EVENT ∧
          w.event.ExceptionCode = EXCEPTION_BREAKPOINT ∧
          w.event.ExceptionAddress = bp.address
      then bp.originalByte else 0xCC := by
  induction pre generalizing sys b with
  | nil =>
    simp only [List.nil_append] at hexit
    rw [eventLoop_last w s sys b hflag hw] at hexit
    have harm : (armSoftwareBreakpoints s s.swBreakpoints sys).mem bp.address = 0xCC := by
      rw [armSoftwareBreakpoints_mem s _ sys _ hwr, if_pos ⟨bp, hbp, rfl⟩]
    have harmw : (armSoftwareBreakpoints s s.swBreakpoints sys).writable = sys.writable := by
      rw [armSoftwareBreakpoints_frame]
    have hstop := Stop_frame s (armSoftwareBreakpoints s s.swBreakpoints sys)
    have hsw := (Stop_session s (armSoftwareBreakpoints s s.swBreakpoints sys)).2.2.1
    have hmem : (s.Stop (armSoftwareBreakpoints s s.swBreakpoints sys)).2.mem bp.address = 0xCC := by
      rw [hstop]; exact harm
    have hwrit : (s.Stop (armSoftwareBreakpoints s s.swBreakpoints sys)).2.writable bp.address
        = true := by
      rw [hstop]
      show (armSoftwareBreakpoints s s.swBreakpoints sys).writable bp.address = true
      rw [harmw]
      exact hwr bp hbp
    cases hd : dispatchDebugEvent (s.Stop (armSoftwareBreakpoints s s.swBreakpoints sys)).1
        w.event (s.Stop (armSoftwareBreakpoints s s.swBreakpoints sys)).2 b with
    | raised err sys1 => rw [hd] at hexit; cases hexit
    | continued sys1 b1 st =>
      rw [hd] at hexit
      cases hexit
      by_cases hhit : w.event.dwDebugEventCode = EXCEPTION_DEBUG_EVENT ∧
          w.event.ExceptionCode = EXCEPTION_BREAKPOINT ∧ w.event.ExceptionAddress = bp.address
      · rw [if_pos hhit]
        obtain ⟨h1, h3, ha⟩ := hhit
        have := dispatch_mem_hit _ w.event _ sys' b b1 st bp.originalByte h1 h3
          (by rw [ha]; exact hwrit)
          (by rw [hsw, ha]; exact ⟨bp, hbp, rfl⟩)
          (by rw [hsw, ha]; exact hob) hd
        rw [ha] at this
        exact this
      · rw [if_neg hhit]
        have := dispatch_mem_other (s.Stop (armSoftwareBreakpoints s s.swBreakpoints sys)).1
          w.event (s.Stop (armSoftwareBreakpoints s s.swBreakpoints sys)).2 b bp.address hhit
        rw [hd] at this
        simp only [EventResult.system] at this
        rw [this, hmem]
  | cons x rest ih =>
    have hx : x.stopCalled = false := hpre x (List.mem_cons_self _ _)
    simp only [List.cons_append] at hexit
    rw [eventLoop_cons x _ s sys b hflag hx] at hexit
    have hfr := dispatch_system_frame s x.event (armSoftwareBreakpoints s s.swBreakpoints sys) b
    cases hd : dispatchDebugEvent s x.event (armSoftwareBreakpoints s s.swBreakpoints sys) b with
    | raised err sys1 => rw [hd] at hexit; cases hexit
    | continued sys1 b1 st =>
      rw [hd] at hexit hfr
      simp only [EventResult.system] at hfr
      apply ih sys1 b1 _ (fun y hy => hpre y (List.mem_cons_of_mem _ hy)) hexit
      intro y hy
      rw [hfr]
      show (armSoftwareBreakpoints s s.swBreakpoints sys).writable y.address = true
      rw [armSoftwareBreakpoints_frame]
      exact hwr y hy

theorem UpdateBreakpoints_debugged (s : DebugHandler) (sys : System)
    (h : sys.debugged = false) : (s.UpdateBreakpoints sys).debugged = false := by
  unfold DebugHandler.UpdateBreakpoints DebugActiveProcess
  split
  · rfl
  · rename_i sys' heq
    split at heq
    · simp at heq
    · simp only [Prod.mk.injEq, true_and] at heq
      subst heq
      exact h

theorem HandleBreakpoints_attached (s : DebugHandler) (sys : System) (waits : List WaitResult)
    (hatt : sys.attachable = true) (hdbg : sys.debugged = false) :
    s.HandleBreakpoints sys waits =
      match eventLoop waits s { sys with debugged := true } false with
      | .exited s sys => .exited s (DebugActiveProcessStop sys)
      | .blocked s sys => .blocked s sys
      | .raised err s sys => .raised err s sys := by
  simp only [DebugHandler.HandleBreakpoints, DebugActiveProcess, hatt, hdbg, Bool.not_false,
    Bool.and_self, if_true]

/-- C7 (amended). For every software breakpoint `bp` of a session (the
collection stores one original byte for `bp`'s address, the memory writes
succeed, the target can be attached to), after `StartHandlingBreakpoints`, any
sequence of debug events and `Stop()` arriving during the wait for the last of
them, with the loop having exited: the byte at `bp.address` equals
`bp.originalByte` when the last event handled was a breakpoint exception at
`bp.address`, and equals `0xCC` otherwise.  `Stop()` restores no software
breakpoint. -/
theorem bytes_after_stop (s s' : DebugHandler) (sys sys' : System) (bp : Breakpoint)
    (pre : List WaitResult) (w : WaitResult)
    (hbp : bp ∈ s.swBreakpoints)
    (hob : ∀ x ∈ s.swBreakpoints, x.address = bp.address → x.originalByte = bp.originalByte)
    (hwr : ∀ x ∈ s.swBreakpoints, sys.writable x.address = true)
    (hatt : sys.attachable = true) (hdbg : sys.debugged = false)
    (hpre : ∀ x ∈ pre, x.stopCalled = false) (hw : w.stopCalled = true)
    (hexit : s.StartHandlingBreakpoints sys (pre ++ [w]) = .exited s' sys') :
    sys'.mem bp.address =
      if w.event.dwDebugEventCode = EXCEPTION_DEBUG_EVENT ∧
          w.event.ExceptionCode = EXCEPTION_BREAKPOINT ∧
          w.event.ExceptionAddress = bp.address
      then bp.originalByte else 0xCC := by
  have hfr := UpdateBreakpoints_frame { s with bHandleBreakpoints := true } sys
  have hd := UpdateBreakpoints_debugged { s with bHandleBreakpoints := true } sys hdbg
  have hatt2 : (DebugHandler.UpdateBreakpoints { s with bHandleBreakpoints := true } sys).attachable
      = true := by rw [hfr]; exact hatt
  have hstart : s.StartHandlingBreakpoints sys (pre ++ [w]) =
      DebugHandler.HandleBreakpoints { s with bHandleBreakpoints := true }
        (DebugHandler.UpdateBreakpoints { s with bHandleBreakpoints := true } sys)
        (pre ++ [w]) := rfl
  rw [hstart, HandleBreakpoints_attached _ _ _ hatt2 hd] at hexit
  generalize hl : eventLoop (pre ++ [w]) _ _ _ = r at hexit
  cases r with
  | raised err s1 sys1 => cases hexit
  | blocked s1 sys1 => cases hexit
  | exited s1 sys1 =>
    simp only [LoopResult.exited.injEq] at hexit
    obtain ⟨-, rfl⟩ := hexit
    show sys1.mem bp.address = _
    refine eventLoop_final_byte bp pre w { s with bHandleBreakpoints := true } s1 _ sys1 false
      rfl hbp hob ?_ hpre hw hl
    intro x hx
    show (DebugHandler.UpdateBreakpoints { s with bHandleBreakpoints := true } sys).writable
      x.address = true
    rw [hfr]
    exact hwr x hx

/-- C7 (amended) at a concrete run: the demo session handles a breakpoint
exception at `0x401000`, then a thread-creation event during whose wait `Stop()`
is called; the loop exits and the byte at `0x401000` is `0xCC`. -/
theorem bytes_after_stop_witness :
    ((demoSession identityCallback).StartHandlingBreakpoints demoSystem
        [{ event := breakpointEvent, stopCalled := false },
         { event := createThreadEvent, stopCalled := true }]).exitedByte 0x401000 = some 0xCC := by
  obtain ⟨s', sys', h⟩ : ∃ s' sys',
      (demoSession identityCallback).StartHandlingBreakpoints demoSystem
        [{ event := breakpointEvent, stopCalled := false },
         { event := createThreadEvent, stopCalled := true }] = .exited s' sys' := ⟨_, _, rfl⟩
  have hb := bytes_after_stop (demoSession identityCallback) s' demoSystem sys'
    (demoSoftware identityCallback) [{ event := breakpointEvent, stopCalled := false }]
    { event := createThreadEvent, stopCalled := true }
    (by simp [demoSession, DebugHandler.CreateSoftwareBreakpoint,
      DebugHandler.CreateHardwareBreakpoint, DebugHandler.construct])
    (by
      intro x hx _
      simp only [demoSession, DebugHandler.CreateSoftwareBreakpoint,
        DebugHandler.CreateHardwareBreakpoint, DebugHandler.construct, List.nil_append,
        List.mem_singleton] at hx
      subst hx
      rfl)
    (fun _ _ => rfl) rfl rfl
    (by
      intro x hx
      simp only [List.mem_singleton] at hx
      subst hx
      rfl)
    rfl h
  have hb' : sys'.mem 0x401000 = 0xCC := hb.trans (by decide)
  rw [h]
  simp only [LoopResult.exitedByte, hb']

/-- C7 (as stated) fails: the demo session (original byte `0x90` at
`0x401000`) is started, receives one thread-creation event during whose wait
`Stop()` is called, and the loop exits; the byte at `0x401000` is `0xCC`, not
the original `0x90`. -/
theorem stop_leaves_int3_in_place :
    (demoSoftware identityCallback).originalByte = 0x90 ∧
    demoSystem.mem 0x401000 = 0x90 ∧
    ((demoSession identityCallback).StartHandlingBreakpoints demoSystem
        [{ event := createThreadEvent, stopCalled := true }]).exitedByte 0x401000 = some 0xCC := by
  decide

/-! ## The thread walk beyond the first snapshot entry -/

theorem setDebugRegisters_spec (ctx : CONTEXT) (addr : Nat) (index : Int) :
    (setDebugRegisters ctx addr index).Dr7 = 0x55 ∧
    (index = 0 → (setDebugRegisters ctx addr index).Dr0 = addr) ∧
    (index = 1 → (setDebugRegisters ctx addr index).Dr1 = addr) ∧
    (index = 2 → (setDebugRegisters ctx addr index).Dr2 = addr) ∧
    (index = 3 → (setDebugRegisters ctx addr index).Dr3 = addr) := by
  refine ⟨rfl, ?_, ?_, ?_, ?_⟩ <;> intro h <;> subst h <;> simp [setDebugRegisters]

theorem programThread_thread (te : THREADENTRY32) (pid addr : Nat) (index : Int) (sys : System)
    (tid : Nat) (t : ThreadState) (ht : sys.threads tid = some t)
    (hget : t.getOk = true) (hset : t.setOk = true) :
    (programThread te pid addr index sys).threads tid =
      if te.th32ThreadID = tid ∧ te.th32OwnerProcessID = pid then
        some { t with
          ctx := setDebugRegisters { t.ctx with ContextFlags := CONTEXT_DEBUG_REGISTERS } addr
            index }
      else some t := by
  by_cases hown : te.th32OwnerProcessID = pid
  · by_cases htid : te.th32ThreadID = tid
    · subst htid
      simp [programThread, hown, OpenThread, ht, GetThreadContext, hget, SetThreadContext, hset]
    · have hne : ¬ tid = te.th32ThreadID := fun h => htid h.symm
      simp only [programThread, hown, if_true, htid, false_and, if_false]
      split
      · cases hte : sys.threads te.th32ThreadID with
        | none => simp [OpenThread, hte, SetThreadContext, ht]
        | some t2 =>
          by_cases hs2 : t2.setOk = true
          · simp [OpenThread, hte, SetThreadContext, hs2, hne, ht]
          · simp [OpenThread, hte, SetThreadContext, hs2, ht]
      · exact ht
  · simp [programThread, hown, ht]

theorem walkThreads_programs (pid addr : Nat) (index : Int) (l : List THREADENTRY32)
    (sys : System) (tid : Nat) (t : ThreadState) (ht : sys.threads tid = some t)
    (hget : t.getOk = true) (hset : t.setOk = true)
    (h : Programmed addr index t ∨
      ∃ te ∈ l, te.th32ThreadID = tid ∧ te.th32OwnerProcessID = pid) :
    ∃ t', (walkThreads pid addr index l sys).threads tid = some t' ∧
      Programmed addr index t' := by
  induction l generalizing sys t with
  | nil =>
    rcases h with hp | ⟨te, hte, _⟩
    · exact ⟨t, ht, hp⟩
    · cases hte
  | cons te rest ih =>
    have hstep := programThread_thread te pid addr index sys tid t ht hget hset
    simp only [walkThreads]
    by_cases hc : te.th32ThreadID = tid ∧ te.th32OwnerProcessID = pid
    · rw [if_pos hc] at hstep
      exact ih _ _ hstep hget hset
        (Or.inl ⟨hget, hset, setDebugRegisters_spec _ addr index⟩)
    · rw [if_neg hc] at hstep
      refine ih _ _ hstep hget hset ?_
      rcases h with hp | ⟨x, hx, hxc⟩
      · exact Or.inl hp
      · rcases List.mem_cons.mp hx with rfl | hx
        · exact absurd hxc hc
        · exact Or.inr ⟨x, hx, hxc⟩

/-- Every snapshot entry after the first that is owned by the target process
and whose thread can be opened, read and written ends with `Dr{index} = addr`
and `Dr7 = 0x55`. -/
theorem later_snapshot_entries_programmed (sys : System) (pid addr : Nat) (index : Int)
    (te : THREADENTRY32) (t : ThreadState)
    (hte : te ∈ sys.snapshot.tail) (hown : te.th32OwnerProcessID = pid)
    (ht : sys.threads te.th32ThreadID = some t)
    (hget : t.getOk = true) (hset : t.setOk = true) :
    ∃ t', (UpdateBreakpointsOnThreads sys pid addr index).threads te.th32ThreadID = some t' ∧
      Programmed addr index t' := by
  unfold UpdateBreakpointsOnThreads Thread32First
  cases hs : sys.snapshot with
  | nil => rw [hs] at hte; cases hte
  | cons first rest =>
    rw [hs] at hte
    exact walkThreads_programs pid addr index rest sys _ t ht hget hset
      (Or.inr ⟨te, hte, rfl, hown⟩)

/-! ## A callback that raises -/

end PyDebugger
